import Mathlib

/-!
Shallow embedding of the `eight_rack` game engine (Python) in Lean 4.

Sources embedded (from `src/src/eight_rack/`):
  * `cards/models.py`     — `CardDefinition` and its type predicates
  * `game/state.py`       — zones, `CardInstance`, `ManaPool`, `parse_mana_cost`,
                            `PlayerState`, `StackItem`, `CombatState`, `GameState`,
                            `check_state_based_actions`
  * `game/resolver/helpers.py` — `_effective_power`, `_effective_toughness`,
                            `DUAL_LAND_COLORS`, `FETCH_TARGETS`, `EVOKE_COSTS`
  * `game/resolver/tier1.py`   — `auto_tap_lands`, `tap_land_for_mana`,
                            `_get_land_mana`, `_resolve_attack`, `_deal_combat_damage`,
                            `resolve_upkeep_triggers`, `_has_keyword`
  * `game/resolver/stack.py`   — `put_spell_on_stack`, `resolve_top_of_stack`,
                            `_targets_invalid`, `_resolve_triggered_ability`
  * `game/triggers.py`    — the trigger registry and its default handlers/resolvers
  * `game/tokens.py`      — `create_token`

Embedding conventions (each is noted again at its use site):
  * Python exceptions (`get_player` raising `ValueError`, malformed mana-cost
    strings, `Action(**None)`) are modelled by `Option`: a `none` result marks a
    code path on which the Python function raises.
  * Python mutates shared `CardInstance` objects through aliases.  The embedding
    updates the card with the matching `id` inside the players' card lists; card
    ids are globally unique in every game the engine builds, so this coincides
    with Python's aliasing.
  * `uuid`-generated ids of freshly created `StackItem`s / tokens are modelled as
    `""` (their value is never inspected by the engine logic embedded here).
  * Python dicts (`counters`, `choices`, parsed mana costs) are association
    lists with first-match lookup; keys are unique by construction.
  * `power` / `toughness` / `loyalty` are stored as strings in Python and always
    read through `int(x or "0")`; they are modelled directly as `Option Int`.
  * `random.shuffle(player.library)` in the Python source shuffles the fresh
    list returned by the `library` property and therefore never changes game
    state; it is embedded as a no-op.
  * Log strings built with f-strings are not modelled verbatim; the SBA action
    log is modelled by the inductive `SBAAction`, one constructor per appended
    message, and `check_state_based_actions` returns them in battlefield order
    (Python groups the legend-rule messages by name; the killed set and the
    final state are identical).
-/

namespace EightRack

/-- Contiguous-sublist test (Boolean form of `List.IsInfix`). -/
def listInfix [DecidableEq α] : List α → List α → Bool
  | needle, [] => needle.isEmpty
  | needle, h :: t => needle.isPrefixOf (h :: t) || listInfix needle t

/-- Python's substring test `needle in haystack`. -/
def strContains (haystack needle : String) : Bool :=
  listInfix needle.data haystack.data

/-- Python's `s.startswith(pre)` as a structural prefix test on characters. -/
def strStartsWith (s pre : String) : Bool :=
  pre.data.isPrefixOf s.data

/-- Replace every occurrence of a (nonempty) pattern, fuelled for structural
recursion.  The fuel is the input length, enough for every step. -/
def listReplace [DecidableEq α] (pat rep : List α) : Nat → List α → List α
  | _, [] => []
  | 0, l => l
  | fuel+1, c :: rest =>
    if pat ≠ [] ∧ pat.isPrefixOf (c :: rest) then
      rep ++ listReplace pat rep fuel ((c :: rest).drop pat.length)
    else c :: listReplace pat rep fuel rest

/-- Python's `s.replace(pat, rep)` (for the nonempty patterns used here). -/
def strReplace (s pat rep : String) : String :=
  ⟨listReplace pat.data rep.data s.data.length s.data⟩

/-- `Zone` from `game/state.py`. -/
inductive Zone where
  | library | hand | battlefield | graveyard | exile | stack | command
  deriving DecidableEq, Repr

/-- `Phase` from `game/state.py`. -/
inductive Phase where
  | untap | upkeep | draw | main_1 | begin_combat | declare_attackers
  | declare_blockers | combat_damage | end_combat | main_2 | end_step | cleanup
  deriving DecidableEq, Repr

/-- `CardType` from `cards/models.py`. -/
inductive CardType where
  | creature | instant | sorcery | enchantment | artifact | planeswalker | land
  deriving DecidableEq, Repr

/-- `CardDefinition` from `cards/models.py` (fields used by the engine). -/
structure CardDefinition where
  name : String
  mana_cost : String := ""
  cmc : Nat := 0
  type_line : String := ""
  oracle_text : String := ""
  power : Option Int := none
  toughness : Option Int := none
  loyalty : Option Int := none
  card_types : List CardType := []
  subtypes : List String := []
  keywords : List String := []
  deriving DecidableEq, Repr

namespace CardDefinition

def is_creature (d : CardDefinition) : Bool := d.card_types.contains .creature
def is_land (d : CardDefinition) : Bool := d.card_types.contains .land
def is_instant (d : CardDefinition) : Bool := d.card_types.contains .instant
def is_sorcery (d : CardDefinition) : Bool := d.card_types.contains .sorcery
def is_planeswalker (d : CardDefinition) : Bool := d.card_types.contains .planeswalker
def is_artifact (d : CardDefinition) : Bool := d.card_types.contains .artifact
def is_saga (d : CardDefinition) : Bool := d.subtypes.contains "Saga"
def is_legendary (d : CardDefinition) : Bool :=
  strContains d.type_line "Legendary"

end CardDefinition

/-- Association-list lookup with Python's `dict.get(k, 0)` semantics. -/
def dictGet (d : List (String × Int)) (k : String) : Int :=
  match d.find? (fun p => p.1 == k) with
  | some p => p.2
  | none => 0

/-- Python truthiness of `dict.get(k)`: present and nonzero. -/
def dictTruthy (d : List (String × Int)) (k : String) : Bool :=
  dictGet d k != 0

/-- `d[k] = v` on an association list (keys stay unique). -/
def dictSet (d : List (String × Int)) (k : String) (v : Int) : List (String × Int) :=
  if d.any (fun p => p.1 == k) then
    d.map (fun p => if p.1 == k then (k, v) else p)
  else d ++ [(k, v)]

/-- `d.pop(k, None)` on an association list. -/
def dictPop (d : List (String × Int)) (k : String) : List (String × Int) :=
  d.filter (fun p => p.1 != k)

/-- `CardInstance` from `game/state.py`. -/
structure CardInstance where
  id : String
  definition : CardDefinition
  zone : Zone := .library
  owner : String := ""
  controller : String := ""
  tapped : Bool := false
  sick : Bool := false
  counters : List (String × Int) := []
  attached_to : Option String := none
  damage_marked : Int := 0
  deriving DecidableEq, Repr

namespace CardInstance

/-- `CardInstance.name` property. -/
def name (c : CardInstance) : String := c.definition.name

end CardInstance

/-- `ManaPool` from `game/state.py`. -/
structure ManaPool where
  white : Int := 0
  blue : Int := 0
  black : Int := 0
  red : Int := 0
  green : Int := 0
  colorless : Int := 0
  deriving DecidableEq, Repr

namespace ManaPool

/-- `ManaPool.total`. -/
def total (m : ManaPool) : Int :=
  m.white + m.blue + m.black + m.red + m.green + m.colorless

/-- `ManaPool.empty` (sets all six counters to zero). -/
def emptyPool (_ : ManaPool) : ManaPool := {}

def getAttr (m : ManaPool) (attr : String) : Int :=
  if attr == "white" then m.white
  else if attr == "blue" then m.blue
  else if attr == "black" then m.black
  else if attr == "red" then m.red
  else if attr == "green" then m.green
  else if attr == "colorless" then m.colorless
  else 0

def setAttr (m : ManaPool) (attr : String) (v : Int) : ManaPool :=
  if attr == "white" then { m with white := v }
  else if attr == "blue" then { m with blue := v }
  else if attr == "black" then { m with black := v }
  else if attr == "red" then { m with red := v }
  else if attr == "green" then { m with green := v }
  else if attr == "colorless" then { m with colorless := v }
  else m

end ManaPool

/-- Split a character list at the first `'}'`; `none` when Python's
`cost.index` would raise `ValueError`. -/
def splitAtRBrace : List Char → Option (List Char × List Char)
  | [] => none
  | c :: rest =>
    if c = '}' then some ([], rest)
    else match splitAtRBrace rest with
      | some (sym, r) => some (c :: sym, r)
      | none => none

/-- Value of a digit string, as in Python's `int(symbol)`. -/
def digitsToInt (cs : List Char) : Int :=
  Int.ofNat (cs.foldl (fun a c => a * 10 + (c.toNat - '0'.toNat)) 0)

/-- One step of `parse_mana_cost`'s `while` loop; `fuel` bounds the iteration
count (the Python loop always advances, so `cost.length` fuel never runs out). -/
def parseManaCostAux : Nat → List Char → List (String × Int) → Option (List (String × Int))
  | 0, [], acc => some acc
  | 0, _ :: _, _ => none
  | _ + 1, [], acc => some acc
  | fuel + 1, c :: rest, acc =>
    if c = '{' then
      match splitAtRBrace rest with
      | none => none
      | some (symChars, rest2) =>
        let sym : String := String.mk symChars
        let acc' :=
          if symChars ≠ [] ∧ symChars.all Char.isDigit then
            dictSet acc "generic" (dictGet acc "generic" + digitsToInt symChars)
          else if sym = "X" then acc
          else dictSet acc sym (dictGet acc sym + 1)
        parseManaCostAux fuel rest2 acc'
    else parseManaCostAux fuel rest acc

/-- `parse_mana_cost` from `game/state.py`.  `none` marks a malformed cost on
which Python raises (an unmatched `\x7b`). -/
def parse_mana_cost (cost : String) : Option (List (String × Int)) :=
  if cost = "" then some [("generic", 0)]
  else parseManaCostAux cost.data.length cost.data [("generic", 0)]

namespace ManaPool

/-- The colored part of `ManaPool.can_pay` / `ManaPool.pay`: `(symbol, attr)`
pairs in the order the Python source iterates them. -/
def colorAttrs : List (String × String) :=
  [("W", "white"), ("U", "blue"), ("B", "black"), ("R", "red"), ("G", "green")]

/-- `ManaPool.can_pay` from `game/state.py` (on an already-parsed cost). -/
def can_pay_parsed (m : ManaPool) (required : List (String × Int)) : Bool :=
  let rec payColors (pool : ManaPool) : List (String × String) → Option ManaPool
    | [] => some pool
    | (sym, attr) :: rest =>
      let needed := dictGet required sym
      let available := pool.getAttr attr
      if available < needed then none
      else payColors (pool.setAttr attr (available - needed)) rest
  match payColors m colorAttrs with
  | none => false
  | some pool => decide (dictGet required "generic" ≤ pool.total)

/-- `ManaPool.can_pay` from `game/state.py`; `none` when the cost is malformed
(Python raises inside `parse_mana_cost`). -/
def can_pay (m : ManaPool) (cost : String) : Option Bool :=
  (parse_mana_cost cost).map (can_pay_parsed m)

/-- The generic part of `ManaPool.pay`: pay from colorless first, then the
colors in the Python iteration order `black, red, green, white, blue`. -/
def payGeneric (m : ManaPool) (generic : Int) : ManaPool :=
  let take := min m.colorless generic
  let m := { m with colorless := m.colorless - take }
  let generic := generic - take
  let step := fun (acc : ManaPool × Int) (attr : String) =>
    let (m, generic) := acc
    if generic ≤ 0 then (m, generic)
    else
      let take := min (m.getAttr attr) generic
      (m.setAttr attr (m.getAttr attr - take), generic - take)
  (["black", "red", "green", "white", "blue"].foldl step (m, generic)).1

/-- `ManaPool.pay` on an already-parsed cost.  The colored pips are subtracted
without any clamping (this is what lets a pool go negative). -/
def pay_parsed (m : ManaPool) (required : List (String × Int)) : ManaPool :=
  let m := colorAttrs.foldl
    (fun pool (p : String × String) =>
      pool.setAttr p.2 (pool.getAttr p.2 - dictGet required p.1)) m
  payGeneric m (dictGet required "generic")

/-- `ManaPool.pay` from `game/state.py`; `none` when the cost is malformed. -/
def pay (m : ManaPool) (cost : String) : Option ManaPool :=
  (parse_mana_cost cost).map (pay_parsed m)

end ManaPool

/-- `PlayerState` from `game/state.py`. -/
structure PlayerState where
  id : String
  name : String
  life : Int := 20
  mana_pool : ManaPool := {}
  land_drops_remaining : Int := 1
  land_drops_per_turn : Int := 1
  cards : List CardInstance := []
  has_drawn_for_turn : Bool := false
  has_lost : Bool := false
  deriving DecidableEq, Repr

namespace PlayerState

/-- `PlayerState.zone`: all cards in a given zone (order-preserving filter). -/
def zoneCards (p : PlayerState) (z : Zone) : List CardInstance :=
  p.cards.filter (fun c => c.zone == z)

def hand (p : PlayerState) : List CardInstance := p.zoneCards .hand
def library (p : PlayerState) : List CardInstance := p.zoneCards .library
def battlefield (p : PlayerState) : List CardInstance := p.zoneCards .battlefield
def graveyard (p : PlayerState) : List CardInstance := p.zoneCards .graveyard

def hand_size (p : PlayerState) : Nat := p.hand.length

/-- `PlayerState.find_card`: first card with the given id, if any. -/
def find_card (p : PlayerState) (card_id : String) : Option CardInstance :=
  p.cards.find? (fun c => c.id == card_id)

end PlayerState

/-- `ActionType` from `game/actions.py`. -/
inductive ActionType where
  | play_land | cast_spell | activate_ability | attack | block
  | pass_priority | discard | choose_target | mulligan | keep_hand | concede
  deriving DecidableEq, Repr

/-- `Action` from `game/actions.py`.  `choices` is a string-valued dict. -/
structure Action where
  type : ActionType
  player_id : String
  card_id : Option String := none
  card_name : String := ""
  targets : List String := []
  choices : List (String × String) := []
  description : String := ""
  deriving DecidableEq, Repr

/-- `action.choices.get(k)`. -/
def choicesGet (d : List (String × String)) (k : String) : Option String :=
  (d.find? (fun p => p.1 == k)).map (fun p => p.2)

/-- `ActionResult` from `game/actions.py` (the log strings carried by
`message` / `state_changes` are not modelled). -/
structure ActionResult where
  success : Bool := true
  tier_used : Nat := 1
  deriving DecidableEq, Repr

/-- The dict stored in `StackItem.action_data`.  The engine stores either a
dumped `Action` (`Action.model_dump()`) or the evoke-sacrifice marker dict
`\x7b"evoke_sacrifice": True, "card_id": ...\x7d`. -/
inductive ActionData where
  | ofAction (a : Action)
  | evokeSac (card_id : Option String)
  deriving DecidableEq, Repr

/-- `StackItem` from `game/state.py`. -/
structure StackItem where
  id : String := ""
  source_card_id : Option String := none
  source_card_name : String := ""
  controller : String := ""
  description : String := ""
  targets : List String := []
  is_ability : Bool := false
  card_instance : Option CardInstance := none
  action_data : Option ActionData := none
  deriving DecidableEq, Repr

/-- `CombatState` from `game/state.py`; `blockers` maps blocker id to the
attacker id it blocks (insertion-ordered dict). -/
structure CombatState where
  attackers : List String := []
  blockers : List (String × String) := []
  deriving DecidableEq, Repr

/-- `GameState` from `game/state.py` (`game_log` is not modelled). -/
structure GameState where
  players : List PlayerState
  active_player_index : Nat := 0
  priority_player_index : Nat := 0
  phase : Phase := .untap
  turn_number : Nat := 1
  stack : List StackItem := []
  combat : CombatState := {}
  spells_cast_this_turn : Nat := 0
  game_over : Bool := false
  winner : Option String := none
  deriving DecidableEq, Repr

namespace GameState

/-- `GameState.get_player`; `none` where Python raises `ValueError`. -/
def getPlayer? (s : GameState) (player_id : String) : Option PlayerState :=
  s.players.find? (fun p => p.id == player_id)

/-- `GameState.opponent_of`; `none` where Python raises `ValueError`. -/
def opponentOf? (s : GameState) (player_id : String) : Option PlayerState :=
  s.players.find? (fun p => p.id != player_id)

/-- `GameState.active_player`; `none` where Python raises `IndexError`. -/
def activePlayer? (s : GameState) : Option PlayerState :=
  s.players.get? s.active_player_index

/-- Replace the player with the given id (Python mutates the object in place). -/
def setPlayerById (s : GameState) (player_id : String) (p : PlayerState) : GameState :=
  { s with players := s.players.map (fun q => if q.id == player_id then p else q) }

/-- Apply `f` to every card with the given id, in every player's list.  This is
the functional image of Python mutating a `CardInstance` through an alias
(card ids are globally unique, see the header). -/
def updateCard (s : GameState) (card_id : String) (f : CardInstance → CardInstance) :
    GameState :=
  { s with players := s.players.map (fun p =>
      { p with cards := p.cards.map (fun c => if c.id == card_id then f c else c) }) }

/-- `card.zone = z` through an alias. -/
def setCardZone (s : GameState) (card_id : String) (z : Zone) : GameState :=
  s.updateCard card_id (fun c => { c with zone := z })

/-- First card with the given id anywhere in the state, scanning players in
order (used to re-read an aliased card after a state-mutating call). -/
def findCardAnywhere (s : GameState) (card_id : String) : Option CardInstance :=
  s.players.foldl (fun acc p =>
    match acc with
    | some c => some c
    | none => p.find_card card_id) none

end GameState

/-! ## `game/resolver/helpers.py` -/

/-- `DUAL_LAND_COLORS`: dual/shock land name to its two colors. -/
def dualLandColors : String → Option (String × String)
  | "Sacred Foundry" => some ("white", "red")
  | "Hallowed Fountain" => some ("white", "blue")
  | "Steam Vents" => some ("blue", "red")
  | "Blood Crypt" => some ("black", "red")
  | "Overgrown Tomb" => some ("black", "green")
  | "Stomping Ground" => some ("red", "green")
  | "Temple Garden" => some ("white", "green")
  | "Watery Grave" => some ("blue", "black")
  | "Godless Shrine" => some ("white", "black")
  | "Breeding Pool" => some ("blue", "green")
  | _ => none

/-- `FETCH_TARGETS`: fetchland name to the basic land types it can find. -/
def fetchTargets : String → Option (List String)
  | "Arid Mesa" => some ["Mountain", "Plains"]
  | "Bloodstained Mire" => some ["Swamp", "Mountain"]
  | "Flooded Strand" => some ["Plains", "Island"]
  | "Marsh Flats" => some ["Plains", "Swamp"]
  | "Misty Rainforest" => some ["Forest", "Island"]
  | "Polluted Delta" => some ["Island", "Swamp"]
  | "Scalding Tarn" => some ["Island", "Mountain"]
  | "Verdant Catacombs" => some ["Swamp", "Forest"]
  | "Windswept Heath" => some ["Forest", "Plains"]
  | "Wooded Foothills" => some ["Mountain", "Forest"]
  | _ => none

/-- `EVOKE_COSTS`: evoke creature name to its evoke mana cost. -/
def evokeCosts : String → Option String
  | "Solitude" => some "{W}"
  | "Endurance" => some "{G}"
  | "Grief" => some "{B}"
  | "Fury" => some "{R}{R}"
  | "Subtlety" => some "{U}{U}"
  | _ => none

/-- `_is_creature` from `helpers.py`: a creature by type, or an animated land. -/
def is_creature_now (c : CardInstance) : Bool :=
  c.definition.is_creature || dictTruthy c.counters "animated"

/-- `_effective_power` from `helpers.py`: base (2 for an animated noncreature)
plus `p1p1`, minus `m1m1_temp`, plus `pump_power_temp`. -/
def effective_power (c : CardInstance) : Int :=
  let base : Int :=
    if dictTruthy c.counters "animated" ∧ ¬c.definition.is_creature then 2
    else c.definition.power.getD 0
  base + dictGet c.counters "p1p1" - dictGet c.counters "m1m1_temp"
    + dictGet c.counters "pump_power_temp"

/-- `_effective_toughness` from `helpers.py`. -/
def effective_toughness (c : CardInstance) : Int :=
  let base : Int :=
    if dictTruthy c.counters "animated" ∧ ¬c.definition.is_creature then 2
    else c.definition.toughness.getD 0
  base + dictGet c.counters "p1p1" - dictGet c.counters "m1m1_temp"
    + dictGet c.counters "pump_toughness_temp"

/-! ## `game/resolver/tier1.py` — mana production and payment -/

/-- `Tier1Mixin._has_keyword`: listed keyword, or lower-cased substring of the
oracle text. -/
def has_keyword (c : CardInstance) (keyword : String) : Bool :=
  c.definition.keywords.contains keyword ||
    strContains c.definition.oracle_text.toLower keyword.toLower

/-- Is a `Blood Moon` on some battlefield? (`_get_land_mana` scans every
player's cards for name and battlefield zone.) -/
def bloodMoonInPlay (s : GameState) : Bool :=
  s.players.any (fun p => p.cards.any (fun c =>
    c.name == "Blood Moon" && c.zone == .battlefield))

/-- Is `Urborg, Tomb of Yawgmoth` on some battlefield? -/
def urborgInPlay (s : GameState) : Bool :=
  s.players.any (fun p => p.battlefield.any (fun c =>
    c.name == "Urborg, Tomb of Yawgmoth"))

/-- `Tier1Mixin._get_land_mana`.  Note: the Python function computes
`urborg_in_play` but never uses it — its docstring's "all lands also produce
black" is not implemented — and a dual land produces only its first color. -/
def get_land_mana (c : CardInstance) (s : GameState) : List (String × Int) :=
  let name := c.name
  let is_basic := name == "Swamp" || name == "Plains" || name == "Mountain" ||
    name == "Island" || name == "Forest"
  if bloodMoonInPlay s && c.definition.is_land && !is_basic then [("red", 1)]
  else if name == "Swamp" then [("black", 1)]
  else if name == "Urborg, Tomb of Yawgmoth" then [("black", 1)]
  else if name == "Castle Locthwain" then [("black", 1)]
  else if name == "Mishra's Factory" then [("colorless", 1)]
  else if name == "Urza's Saga" then [("colorless", 1)]
  else if name == "Plains" then [("white", 1)]
  else if name == "Mountain" then [("red", 1)]
  else if name == "Island" then [("blue", 1)]
  else if name == "Forest" then [("green", 1)]
  else
    match dualLandColors name with
    | some (color1, _) => [(color1, 1)]
    | none =>
      if (fetchTargets name).isSome then []
      else
        let oracle := c.definition.oracle_text.toLower
        if strContains oracle "\x7bw\x7d" then [("white", 1)]
        else if strContains oracle "\x7br\x7d" then [("red", 1)]
        else if strContains oracle "\x7bb\x7d" then [("black", 1)]
        else if strContains oracle "\x7bu\x7d" then [("blue", 1)]
        else if strContains oracle "\x7bg\x7d" then [("green", 1)]
        else if c.definition.is_land then [("colorless", 1)]
        else []

/-- Sum of a mana dict's values (`sum(mana.values())`). -/
def manaTotal (mana : List (String × Int)) : Int :=
  (mana.map (fun p => p.2)).sum

/-- Add a produced mana dict to a pool
(`setattr(pool, color, getattr(pool, color, 0) + amount)`). -/
def addManaToPool (pool : ManaPool) (mana : List (String × Int)) : ManaPool :=
  mana.foldl (fun pool p => pool.setAttr p.1 (pool.getAttr p.1 + p.2)) pool

/-- `Tier1Mixin.tap_land_for_mana`; `none` where `get_player` raises. -/
def tap_land_for_mana (s : GameState) (player_id card_id : String) :
    Option (GameState × ActionResult) :=
  match s.getPlayer? player_id with
  | none => none
  | some player =>
    match player.find_card card_id with
    | none => some (s, { success := false })
    | some card =>
      if card.tapped || card.zone != .battlefield then some (s, { success := false })
      else
        let sTapped := s.updateCard card.id (fun c => { c with tapped := true })
        let mana := get_land_mana { card with tapped := true } sTapped
        match sTapped.getPlayer? player_id with
        | none => none
        | some p2 =>
          let s2 := sTapped.setPlayerById player_id
            { p2 with mana_pool := addManaToPool p2.mana_pool mana }
          some (s2, { success := true })

/-- The `(color_symbol, attr)` pairs of `auto_tap_lands`'s colored loop, in
Python order. -/
def autoTapColorOrder : List (String × String) :=
  [("B", "black"), ("W", "white"), ("U", "blue"), ("R", "red"), ("G", "green")]

/-- Inner scan of `auto_tap_lands`'s colored loop over one land list: tap
not-yet-planned lands that can produce the color until the pip count is met. -/
def planScan (canProduce : CardInstance → Bool) :
    List CardInstance → List String → Int → (List String × Int)
  | [], tapped, needed => (tapped, needed)
  | land :: rest, tapped, needed =>
    if needed ≤ 0 then (tapped, needed)
    else if tapped.contains land.id then planScan canProduce rest tapped needed
    else if canProduce land then planScan canProduce rest (tapped ++ [land.id]) (needed - 1)
    else planScan canProduce rest tapped needed

/-- The colored-pip phase of `auto_tap_lands`: for each color, scan basics then
duals; `none` when some pip cannot be satisfied (Python `return False`). -/
def planColored (s : GameState) (urborg : Bool) (basics duals : List CardInstance)
    (required : List (String × Int)) :
    List (String × String) → List String → Option (List String)
  | [], tapped => some tapped
  | (sym, attr) :: restColors, tapped =>
    let needed := dictGet required sym
    if needed ≤ 0 then planColored s urborg basics duals required restColors tapped
    else
      let basicCan := fun (land : CardInstance) =>
        let mana := get_land_mana land s
        dictGet mana attr > 0 || (attr == "black" && urborg)
      let (tapped1, needed1) := planScan basicCan basics tapped needed
      let (tapped2, needed2) :=
        if needed1 > 0 then
          let dualCan := fun (land : CardInstance) =>
            match dualLandColors land.name with
            | some (c1, c2) => c1 == attr || c2 == attr || (attr == "black" && urborg)
            | none => false
          planScan dualCan duals tapped1 needed1
        else (tapped1, needed1)
      if needed2 > 0 then none
      else planColored s urborg basics duals required restColors tapped2

/-- The generic phase of `auto_tap_lands`: tap any remaining land that
produces at least one mana. -/
def planGeneric (s : GameState) :
    List CardInstance → List String → Int → (List String × Int)
  | [], tapped, generic => (tapped, generic)
  | land :: rest, tapped, generic =>
    if generic ≤ 0 then (tapped, generic)
    else if tapped.contains land.id then planGeneric s rest tapped generic
    else if manaTotal (get_land_mana land s) > 0 then
      planGeneric s rest (tapped ++ [land.id]) (generic - 1)
    else planGeneric s rest tapped generic

/-- `Tier1Mixin.auto_tap_lands`.  Returns `none` where Python raises (unknown
player, malformed cost); otherwise the success flag and the new state.  The
planning phase mutates nothing; lands are tapped only after both the colored
and the generic requirements are met. -/
def auto_tap_lands (s : GameState) (player_id cost : String) :
    Option (Bool × GameState) :=
  match s.getPlayer? player_id with
  | none => none
  | some player =>
    match parse_mana_cost cost with
    | none => none
    | some required =>
      let urborg := urborgInPlay s
      let untapped_lands := player.battlefield.filter
        (fun c => c.definition.is_land && !c.tapped)
      let basics := untapped_lands.filter (fun l => (dualLandColors l.name).isNone)
      let duals := untapped_lands.filter (fun l => (dualLandColors l.name).isSome)
      match planColored s urborg basics duals required autoTapColorOrder [] with
      | none => some (false, s)
      | some tapped1 =>
        let (tapped2, generic2) :=
          planGeneric s (basics ++ duals) tapped1 (dictGet required "generic")
        if generic2 > 0 then some (false, s)
        else
          let final := untapped_lands.foldl (fun st land =>
            if tapped2.contains land.id then
              match tap_land_for_mana st player_id land.id with
              | some (st', _) => st'
              | none => st   -- unreachable: the player id was just found
            else st) s
          some (true, final)

/-! ## `game/resolver/tier1.py` — attack declaration, upkeep fallback, combat -/

/-- `Tier1Mixin._resolve_attack`; `none` where `get_player` raises. -/
def resolve_attack (s : GameState) (action : Action) :
    Option (GameState × ActionResult) :=
  match s.getPlayer? action.player_id with
  | none => none
  | some player =>
    match action.card_id.bind player.find_card with
    | none => some (s, { success := false })
    | some card =>
      let has_haste := has_keyword card "Haste"
      let has_vigilance := has_keyword card "Vigilance"
      if card.tapped then some (s, { success := false })
      else if card.sick && !has_haste then some (s, { success := false })
      else
        let s1 := if !has_vigilance then
            s.updateCard card.id (fun c => { c with tapped := true })
          else s
        let s2 := { s1 with combat :=
          { s1.combat with attackers := s1.combat.attackers ++ [card.id] } }
        some (s2, { success := true })

/-- `Tier1Mixin.resolve_upkeep_triggers` — the hardcoded fallback used when the
engine has no trigger registry.  It scans every player's battlefield; note that
it never consults `active_player`, so Rack effects are applied in every upkeep.
`none` where `opponent_of` raises. -/
def resolve_upkeep_triggers (s : GameState) : Option GameState :=
  let step := fun (st? : Option GameState) (card : CardInstance) =>
    match st? with
    | none => none
    | some st =>
      if card.name == "The Rack" then
        match st.opponentOf? card.controller with
        | none => none
        | some opponent =>
          if opponent.hand_size < 3 then
            let damage : Int := 3 - (opponent.hand_size : Int)
            some (st.setPlayerById opponent.id
              { opponent with life := opponent.life - damage })
          else some st
      else if card.name == "Shrieking Affliction" then
        match st.opponentOf? card.controller with
        | none => none
        | some opponent =>
          if opponent.hand_size ≤ 1 then
            some (st.setPlayerById opponent.id
              { opponent with life := opponent.life - 3 })
          else some st
      else some st
  -- card lists never change during the scan, so iterating the original
  -- battlefields matches Python's live iteration
  (s.players.flatMap (fun p => p.battlefield)).foldl step (some s)

/-- `player.life += delta` through the player id (the Python code mutates the
`PlayerState` object it was handed). -/
def addLife (s : GameState) (player_id : String) (delta : Int) : GameState :=
  match s.getPlayer? player_id with
  | none => s
  | some p => s.setPlayerById player_id { p with life := p.life + delta }

/-- The blocked branch of `_deal_combat_damage`: damage the blockers in
blocker-dict order; each takes `min remaining lethal` where lethal is 1 for a
deathtouch attacker and `max 0 (effective toughness - damage_marked)`
otherwise; deathtouch damage sets the `deathtouch_damage` counter. -/
def damageBlockers (hasDeathtouch : Bool) :
    GameState → List CardInstance → Int → (GameState × Int)
  | st, [], remaining => (st, remaining)
  | st, blocker :: rest, remaining =>
    let bt := effective_toughness blocker
    let lethal : Int := if hasDeathtouch then 1 else max 0 (bt - blocker.damage_marked)
    let dmg := min remaining lethal
    let st := st.updateCard blocker.id (fun c =>
      let c := { c with damage_marked := c.damage_marked + dmg }
      if hasDeathtouch ∧ dmg > 0 then
        { c with counters := dictSet c.counters "deathtouch_damage" 1 }
      else c)
    damageBlockers hasDeathtouch st rest (remaining - dmg)

/-- `Tier1Mixin._deal_combat_damage` (the `is_first_strike` flag only affects
log strings and is omitted).  The attacker snapshots are the objects the
caller collected; the attacking and defending players are passed by id. -/
def deal_combat_damage (s : GameState) (attackers : List CardInstance)
    (attacking_id defending_id : String) : GameState :=
  attackers.foldl (fun st attacker =>
    if attacker.zone != .battlefield then st
    else
      let power := effective_power attacker
      if power ≤ 0 then st
      else
        let hasDeathtouch := has_keyword attacker "Deathtouch"
        let hasTrample := has_keyword attacker "Trample"
        let hasLifelink := has_keyword attacker "Lifelink"
        let blocker_ids :=
          (st.combat.blockers.filter (fun p => p.2 == attacker.id)).map (fun p => p.1)
        let blockers := (blocker_ids.filterMap (fun bid =>
            (st.getPlayer? defending_id).bind (fun dp => dp.find_card bid))).filter
          (fun b => b.zone == .battlefield)
        if blockers.isEmpty then
          let st := addLife st defending_id (-power)
          if hasLifelink then addLife st attacking_id power else st
        else
          let (st, remaining) := damageBlockers hasDeathtouch st blockers power
          let st := if hasTrample && remaining > 0 then
              addLife st defending_id (-remaining)
            else st
          if hasLifelink then
            let total := power - remaining + (if hasTrample then remaining else 0)
            if total > 0 then addLife st attacking_id total else st
          else st) s

/-! ## `game/state.py` — `check_state_based_actions` -/

/-- One entry of the list of strings returned by `check_state_based_actions`,
one constructor per `actions.append` site. -/
inductive SBAAction where
  | playerLoses (name : String)
  | gameOver (winner : Option String)
  | diesZeroToughness (name : String)
  | diesLethalDamage (name : String)
  | diesDeathtouch (name : String)
  | sagaSacrificed (name : String)
  | planeswalkerDies (name : String)
  | legendRule (name : String)
  deriving DecidableEq, Repr

/-- The toughness computed inline by the SBA creature check: base toughness
plus `p1p1`, minus `m1m1_temp`, plus `pump_toughness_temp`. -/
def sba_toughness (c : CardInstance) : Int :=
  c.definition.toughness.getD 0 + dictGet c.counters "p1p1"
    - dictGet c.counters "m1m1_temp" + dictGet c.counters "pump_toughness_temp"

/-- The per-card body of the SBA creature loop.  A creature with non-positive
toughness always dies; lethal marked damage and the deathtouch flag are blocked
by Indestructible (listed keyword only). -/
def creature_step_card (c : CardInstance) : CardInstance × Option SBAAction :=
  if c.zone = .battlefield ∧ c.definition.is_creature then
    let is_indestructible := c.definition.keywords.contains "Indestructible"
    let toughness := sba_toughness c
    if toughness ≤ 0 then
      ({ c with zone := .graveyard }, some (.diesZeroToughness c.name))
    else if c.damage_marked ≥ toughness ∧ ¬is_indestructible then
      ({ c with zone := .graveyard }, some (.diesLethalDamage c.name))
    else if dictTruthy c.counters "deathtouch_damage" ∧ ¬is_indestructible then
      ({ c with zone := .graveyard, counters := dictPop c.counters "deathtouch_damage" },
        some (.diesDeathtouch c.name))
    else (c, none)
  else (c, none)

/-- The per-card body of the SBA saga loop: a battlefield saga with three or
more lore counters is sacrificed. -/
def saga_step_card (c : CardInstance) : CardInstance × Option SBAAction :=
  if c.zone = .battlefield ∧ c.definition.is_saga ∧ dictGet c.counters "lore" ≥ 3 then
    ({ c with zone := .graveyard }, some (.sagaSacrificed c.name))
  else (c, none)

/-- The per-card body of the SBA planeswalker loop: zero or less loyalty. -/
def pw_step_card (c : CardInstance) : CardInstance × Option SBAAction :=
  if c.zone = .battlefield ∧ c.definition.is_planeswalker ∧
      dictGet c.counters "loyalty" ≤ 0 then
    ({ c with zone := .graveyard }, some (.planeswalkerDies c.name))
  else (c, none)

/-- Map a per-card step over a card list, collecting the emitted actions. -/
def mapCollect (f : CardInstance → CardInstance × Option SBAAction) :
    List CardInstance → List CardInstance × List SBAAction
  | [] => ([], [])
  | c :: rest =>
    let (c', act?) := f c
    let (rest', acts) := mapCollect f rest
    (c' :: rest', act?.toList ++ acts)

/-- Is this card a battlefield legendary (the cards grouped by the legend
rule)? -/
def is_legend_bf (c : CardInstance) : Bool :=
  c.zone == .battlefield && c.definition.is_legendary

/-- The SBA legend rule on one player's card list: a battlefield legendary
dies exactly when a *later* battlefield legendary with the same name exists
(Python keeps `legends[-1]` of each name group and buries the rest; the killed
set is identical, the emitted actions here are in list order rather than
grouped by name). -/
def legend_step : List CardInstance → List CardInstance × List SBAAction
  | [] => ([], [])
  | c :: rest =>
    let (rest', acts) := legend_step rest
    if is_legend_bf c ∧ rest.any (fun d => is_legend_bf d && d.name == c.name) then
      ({ c with zone := .graveyard } :: rest', .legendRule c.name :: acts)
    else (c :: rest', acts)

/-- The card-zone part of one player's SBA pass: creature deaths, saga
sacrifice, planeswalker deaths, then the legend rule (the order of the loops
in `check_state_based_actions`). -/
def sba_cards (cards : List CardInstance) :
    List CardInstance × List SBAAction :=
  let (c1, a1) := mapCollect creature_step_card cards
  let (c2, a2) := mapCollect saga_step_card c1
  let (c3, a3) := mapCollect pw_step_card c2
  let (c4, a4) := legend_step c3
  (c4, a1 ++ a2 ++ a3 ++ a4)

/-- The body of `check_state_based_actions`'s `for p in self.players` loop for
the player at index `i`: life-loss check, game-over check, then the card
passes.  Where Python's `opponent_of` would raise (no second player), the
winner is recorded as `none`. -/
def sbaStep (s : GameState) (acc : List SBAAction) (i : Nat) :
    GameState × List SBAAction :=
  match s.players.get? i with
  | none => (s, acc)
  | some p =>
    let (p1, acts1) :=
      if p.life ≤ 0 ∧ ¬p.has_lost then
        ({ p with has_lost := true }, [SBAAction.playerLoses p.name])
      else (p, ([] : List SBAAction))
    let s1 := { s with players := s.players.set i p1 }
    let (s2, acts2) :=
      if p1.has_lost ∧ ¬s1.game_over then
        let w := (s1.opponentOf? p1.id).map (fun q => q.id)
        ({ s1 with game_over := true, winner := w }, [SBAAction.gameOver w])
      else (s1, ([] : List SBAAction))
    let (cards', acts3) := sba_cards p1.cards
    let s3 := { s2 with players := s2.players.set i { p1 with cards := cards' } }
    (s3, acc ++ acts1 ++ acts2 ++ acts3)

/-- `GameState.check_state_based_actions`: run the per-player pass over every
player in order, returning the new state and the emitted action log. -/
def check_state_based_actions (s : GameState) : GameState × List SBAAction :=
  (List.range s.players.length).foldl (fun st i => sbaStep st.1 st.2 i) (s, [])

/-! ## `game/tokens.py` -/

/-- `create_token` (the `uuid` id is modelled as `""`; `power`/`toughness` are
passed already parsed, see the header). -/
def create_token (controller_id name type_line : String) (card_types : List CardType)
    (subtypes : List String) (power toughness : Int) (oracle_text : String)
    (keywords : List String) (counters : List (String × Int)) : CardInstance :=
  { id := ""
    definition :=
      { name := name
        type_line := type_line
        card_types := card_types
        subtypes := subtypes
        power := some power
        toughness := some toughness
        oracle_text := oracle_text
        keywords := keywords }
    zone := Zone.battlefield
    owner := controller_id
    controller := controller_id
    sick := card_types.contains .creature
    counters := counters }

/-! ## `game/triggers.py` -/

/-- `TriggerType`. -/
inductive TriggerType where
  | upkeep | etb | dies | attack | draw_card | cast_spell | deals_damage
  | leaves_battlefield
  deriving DecidableEq, Repr

/-- A trigger handler `(state, source_card, **context) -> StackItem | None`.
The only context key ever passed is `drawing_player_id`, modelled by the
`Option String` argument.  The outer `Option` marks a raising path. -/
def TriggerHandler : Type :=
  GameState → CardInstance → Option String → Option (Option StackItem)

/-- A trigger resolver `(state, stack_item) -> ActionResult`, mutating the
state; the outer `Option` marks a raising path. -/
def TriggerResolver : Type :=
  GameState → StackItem → Option (GameState × ActionResult)

/-- `TriggerRegistry`: `(card_name, trigger_type)` to handler, name to
resolution handler. -/
structure TriggerRegistry where
  handlers : String → TriggerType → Option TriggerHandler
  resolvers : String → Option TriggerResolver

/-- `_the_rack_trigger`: only during the opponent's upkeep, only when the
opponent's hand has fewer than 3 cards. -/
def the_rack_trigger : TriggerHandler := fun s card _ =>
  match s.opponentOf? card.controller with
  | none => none
  | some opponent =>
    match s.activePlayer? with
    | none => none
    | some ap =>
      if ap.id != opponent.id then some none
      else
        let hand_size := opponent.hand_size
        if hand_size ≥ 3 then some none
        else
          let damage : Int := 3 - (hand_size : Int)
          some (some
            { source_card_id := some card.id
              source_card_name := "The Rack"
              controller := card.controller
              description := "The Rack deals " ++ toString damage ++ " to " ++ opponent.name
              targets := ["player:" ++ opponent.id]
              is_ability := true })

/-- `_shrieking_affliction_trigger`: opponent's upkeep, hand size at most 1. -/
def shrieking_affliction_trigger : TriggerHandler := fun s card _ =>
  match s.opponentOf? card.controller with
  | none => none
  | some opponent =>
    match s.activePlayer? with
    | none => none
    | some ap =>
      if ap.id != opponent.id then some none
      else if opponent.hand_size > 1 then some none
      else
        some (some
          { source_card_id := some card.id
            source_card_name := "Shrieking Affliction"
            controller := card.controller
            description := "Shrieking Affliction deals 3 to " ++ opponent.name
            targets := ["player:" ++ opponent.id]
            is_ability := true })

/-- `_bowmasters_draw_trigger`. -/
def bowmasters_draw_trigger : TriggerHandler := fun s card ctx =>
  match ctx with
  | none => some none
  | some drawing_player_id =>
    if drawing_player_id == card.controller then some none
    else
      match s.opponentOf? card.controller with
      | none => none
      | some opponent =>
        some (some
          { source_card_id := some card.id
            source_card_name := "Orcish Bowmasters"
            controller := card.controller
            description := "Orcish Bowmasters triggers (opponent drew a card)"
            targets := ["player:" ++ opponent.id]
            is_ability := true })

/-- `_bowmasters_etb_trigger`: always produces a trigger item. -/
def bowmasters_etb_trigger : TriggerHandler := fun s card _ =>
  match s.opponentOf? card.controller with
  | none => none
  | some opponent =>
    some (some
      { source_card_id := some card.id
        source_card_name := "Orcish Bowmasters"
        controller := card.controller
        description := "Orcish Bowmasters ETB: deal 1 to " ++ opponent.name
        targets := ["player:" ++ opponent.id]
        is_ability := true })

/-- `_resolve_the_rack`: re-read the hand size at resolution and deal
`3 - hand_size` to the targeted player when the hand has fewer than 3 cards. -/
def resolve_the_rack : TriggerResolver := fun s item =>
  match item.targets with
  | [] => some (s, { success := true })
  | t :: _ =>
    let target_id := strReplace t "player:" ""
    match s.getPlayer? target_id with
    | none => none
    | some target =>
      if target.hand_size ≥ 3 then some (s, { success := true })
      else
        let damage : Int := 3 - (target.hand_size : Int)
        some (s.setPlayerById target.id { target with life := target.life - damage },
          { success := true, tier_used := 2 })

/-- `_resolve_shrieking_affliction`. -/
def resolve_shrieking_affliction : TriggerResolver := fun s item =>
  match item.targets with
  | [] => some (s, { success := true })
  | t :: _ =>
    let target_id := strReplace t "player:" ""
    match s.getPlayer? target_id with
    | none => none
    | some target =>
      if target.hand_size > 1 then some (s, { success := true })
      else
        some (s.setPlayerById target.id { target with life := target.life - 3 },
          { success := true, tier_used := 2 })

/-- `_resolve_bowmasters_trigger`: 1 damage to the target, then amass Orcs 1. -/
def resolve_bowmasters_trigger : TriggerResolver := fun s item =>
  match item.targets with
  | [] => some (s, { success := true })
  | t :: _ =>
    let target_id := strReplace t "player:" ""
    match s.getPlayer? target_id with
    | none => none
    | some target =>
      let s := s.setPlayerById target.id { target with life := target.life - 1 }
      match s.getPlayer? item.controller with
      | none => none
      | some controller =>
        match controller.battlefield.find? (fun c => c.definition.subtypes.contains "Army") with
        | some army =>
          some (s.updateCard army.id (fun c =>
            { c with counters := dictSet c.counters "p1p1" (dictGet c.counters "p1p1" + 1) }),
            { success := true, tier_used := 2 })
        | none =>
          let token := create_token item.controller "Orc Army" "Token Creature — Orc Army"
            [.creature] ["Orc", "Army"] 0 0 "" [] [("p1p1", 1)]
          some (s.setPlayerById controller.id
            { controller with cards := controller.cards ++ [token] },
            { success := true, tier_used := 2 })

/-- The registry built by `TriggerRegistry._register_defaults`. -/
def defaultRegistry : TriggerRegistry where
  handlers := fun name tt =>
    match name, tt with
    | "The Rack", .upkeep => some the_rack_trigger
    | "Shrieking Affliction", .upkeep => some shrieking_affliction_trigger
    | "Orcish Bowmasters", .draw_card => some bowmasters_draw_trigger
    | "Orcish Bowmasters", .etb => some bowmasters_etb_trigger
    | _, _ => none
  resolvers := fun name =>
    match name with
    | "The Rack" => some resolve_the_rack
    | "Shrieking Affliction" => some resolve_shrieking_affliction
    | "Orcish Bowmasters" => some resolve_bowmasters_trigger
    | _ => none

/-- `TriggerRegistry.check_triggers`: the ETB case consults only the entering
card's handler; every other kind scans all battlefield permanents in player
order. -/
def check_triggers (reg : TriggerRegistry) (s : GameState) (tt : TriggerType)
    (source_card : Option CardInstance) (ctx : Option String) :
    Option (List StackItem) :=
  match tt, source_card with
  | .etb, some sc =>
    (match reg.handlers sc.name .etb with
     | some h => (h s sc ctx).map (fun it? => it?.toList)
     | none => some [])
  | _, _ =>
    (s.players.flatMap (fun p => p.battlefield)).foldl (fun acc card =>
      match acc with
      | none => none
      | some items =>
        match reg.handlers card.name tt with
        | some h => (h s card ctx).map (fun it? => items ++ it?.toList)
        | none => some items) (some [])

/-! ## `game/resolver/stack.py` -/

/-- A Tier-2 template `(state, action, card) -> ActionResult`, mutating the
state; `none` marks a raising path.  The repository's templates are treated as
opaque functions of this type. -/
def TemplateFn : Type :=
  GameState → Action → CardInstance → Option (GameState × ActionResult)

/-- The resolver's environment: the Tier-2 template table, the optional
trigger registry, and the agent's `choose_search_target` callback. -/
structure ResolveEnv where
  templates : String → Option TemplateFn
  registry : Option TriggerRegistry
  chooseSearchTarget : GameState → List CardInstance → Option String

/-- `put_spell_on_stack`'s inner `do_pay`: `auto_tap_lands` then
`ManaPool.pay`. -/
def putDoPay (s : GameState) (player_id cost : String) : Option (Bool × GameState) :=
  match auto_tap_lands s player_id cost with
  | none => none
  | some (false, s2) => some (false, s2)
  | some (true, s2) =>
    match s2.getPlayer? player_id with
    | none => none
    | some pl2 =>
      match pl2.mana_pool.pay cost with
      | none => none
      | some pool2 =>
        some (true, s2.setPlayerById pl2.id { pl2 with mana_pool := pool2 })

/-- `put_spell_on_stack`'s prowess pass: after a noncreature spell, give every
battlefield creature with prowess a temporary +1/+1. -/
def putProwess (s4 : GameState) (player_id : String) (card : CardInstance) : GameState :=
  if ¬card.definition.is_creature then
    match s4.getPlayer? player_id with
    | none => s4   -- unreachable: the player id was found above
    | some pl =>
      let bumpPump := fun (cs : List (String × Int)) =>
        dictSet (dictSet cs "pump_power_temp" (dictGet cs "pump_power_temp" + 1))
          "pump_toughness_temp" (dictGet cs "pump_toughness_temp" + 1)
      s4.setPlayerById pl.id { pl with cards := pl.cards.map (fun cr =>
        if cr.zone == Zone.battlefield ∧ cr.definition.is_creature ∧
            (cr.definition.keywords.contains "Prowess" ||
              strContains cr.definition.oracle_text.toLower "prowess") then
          { cr with counters := bumpPump cr.counters }
        else cr) }
  else s4

/-- The `StackItem` appended by `put_spell_on_stack`. -/
def putItem (action : Action) (card : CardInstance) : StackItem :=
  { source_card_id := some card.id
    source_card_name := card.name
    controller := action.player_id
    description := card.name ++ " (spell)"
    targets := action.targets
    is_ability := false
    card_instance := some { card with zone := Zone.stack }
    action_data := some (.ofAction action) }

/-- `StackMixin.put_spell_on_stack`: pay the (evoke or printed) cost through
`auto_tap_lands` and `ManaPool.pay`, move the card to the stack zone, bump the
spell count, apply prowess, and append the new `StackItem`. -/
def put_spell_on_stack (s : GameState) (action : Action) :
    Option (GameState × ActionResult) :=
  match s.getPlayer? action.player_id with
  | none => none
  | some player =>
    match action.card_id.bind player.find_card with
    | none => some (s, { success := false })
    | some card =>
      let is_evoked := choicesGet action.choices "evoke" == some "true"
      let payStep : Option (Bool × GameState) :=
        if is_evoked then
          putDoPay s action.player_id ((evokeCosts card.name).getD card.definition.mana_cost)
        else if card.definition.mana_cost != "" then
          putDoPay s action.player_id card.definition.mana_cost
        else some (true, s)
      match payStep with
      | none => none
      | some (false, s2) => some (s2, { success := false })
      | some (true, s2) =>
        let s3 := s2.setCardZone card.id Zone.stack
        let s4 := { s3 with spells_cast_this_turn := s3.spells_cast_this_turn + 1 }
        let s5 := putProwess s4 action.player_id card
        some ({ s5 with stack := s5.stack ++ [putItem action card] }, { success := true })

/-- Inner scan of `_targets_invalid` for one target: is it a card that some
player still holds on the battlefield or in hand? -/
def targetValidSomewhere (players : List PlayerState) (target : String) : Bool :=
  players.any (fun p =>
    match p.find_card target with
    | some c => c.zone == .battlefield || c.zone == .hand
    | none => false)

/-- `StackMixin._targets_invalid`: true iff the target list is nonempty and
every target is neither a player tag nor a card found on a battlefield or in a
hand. -/
def targets_invalid (s : GameState) (targets : List String) : Bool :=
  if targets.isEmpty then false
  else targets.all (fun t =>
    !(strStartsWith t "player:") && !(targetValidSomewhere s.players t))

/-- `StackMixin._resolve_urzas_saga_search` (library shuffles are no-ops on
state, see the header). -/
def resolve_urzas_saga_search (env : ResolveEnv) (s : GameState) (item : StackItem) :
    Option (GameState × ActionResult) :=
  match s.getPlayer? item.controller with
  | none => none
  | some player =>
    let candidates := player.library.filter (fun c =>
      c.definition.is_artifact && c.definition.cmc ≤ 1)
    match candidates with
    | [] => some (s, { success := true, tier_used := 2 })
    | c0 :: _ =>
      let chosen_id := env.chooseSearchTarget s candidates
      let chosen :=
        (chosen_id.bind (fun cid => candidates.find? (fun c => c.id == cid))).getD c0
      let s2 := s.updateCard chosen.id (fun c =>
        { c with zone := Zone.battlefield, controller := player.id })
      some (s2, { success := true, tier_used := 2 })

/-- `StackMixin._resolve_triggered_ability`. -/
def resolve_triggered_ability (env : ResolveEnv) (s : GameState) (item : StackItem) :
    Option (GameState × ActionResult) :=
  match item.action_data with
  | some (.evokeSac card_id?) =>
    (match card_id? with
     | none => some (s, { success := true })
     | some cid =>
       if s.players.any (fun p =>
           match p.find_card cid with
           | some c => c.zone == .battlefield
           | none => false) then
         some (s.setCardZone cid .graveyard, { success := true })
       else some (s, { success := true }))
  | _ =>
    if item.source_card_name == "Urza's Saga" &&
        (match item.action_data with
         | some (.ofAction a) => choicesGet a.choices "mode" == some "saga_chapter_3"
         | _ => false) then
      resolve_urzas_saga_search env s item
    else if item.source_card_name == "Urza's Saga" ∧
        strContains item.description "chapter I" then
      some (s, { success := true, tier_used := 2 })
    else if item.source_card_name == "Urza's Saga" ∧
        strContains item.description "chapter II" then
      some (s, { success := true, tier_used := 2 })
    else
      match env.registry with
      | some reg =>
        (match reg.resolvers item.source_card_name with
         | some resolver => resolver s item
         | none => some (s, { success := true, tier_used := 2 }))
      | none => some (s, { success := true, tier_used := 2 })

/-- `list.pop()`: split off the last element. -/
def popLast : List α → Option (List α × α)
  | [] => none
  | [a] => some ([], a)
  | a :: b :: rest =>
    match popLast (b :: rest) with
    | some (init, last) => some (a :: init, last)
    | none => none

/-- The non-ability body of `resolve_top_of_stack`, once the spell's card is
in hand: fizzle check, instant/sorcery via template then graveyard, or
permanent entering the battlefield with ETB/evoke follow-ups. -/
def resolveSpellBody (env : ResolveEnv) (s1 : GameState) (item : StackItem)
    (action : Action) (card : CardInstance) : Option (GameState × ActionResult) :=
  if ¬item.targets.isEmpty ∧ targets_invalid s1 item.targets then
    some (s1.setCardZone card.id .graveyard, { success := true })
  else if card.definition.is_instant || card.definition.is_sorcery then
    let tplRes : Option (GameState × ActionResult) :=
      match env.templates card.name with
      | some tpl => tpl s1 action card
      | none => some (s1, { success := true, tier_used := 3 })
    match tplRes with
    | none => none
    | some (s2, res) => some (s2.setCardZone card.id .graveyard, res)
  else
    let cardUpd0 := { card with zone := Zone.battlefield, controller := item.controller }
    let cardUpd1 :=
      if cardUpd0.definition.is_creature then { cardUpd0 with sick := true }
      else cardUpd0
    let cardUpd2 :=
      if cardUpd1.definition.is_saga then
        { cardUpd1 with counters := dictSet cardUpd1.counters "lore" 1 }
      else cardUpd1
    let cardUpd :=
      match cardUpd2.definition.is_planeswalker, cardUpd2.definition.loyalty with
      | true, some l => { cardUpd2 with counters := dictSet cardUpd2.counters "loyalty" l }
      | _, _ => cardUpd2
    let s2 := s1.updateCard card.id (fun _ => cardUpd)
    let tplRes : Option (GameState × ActionResult) :=
      match env.templates card.name with
      | some tpl => tpl s2 action cardUpd
      | none => some (s2, { success := true, tier_used := 2 })
    match tplRes with
    | none => none
    | some (s3, res) =>
      let cardAfter := (s3.findCardAnywhere card.id).getD cardUpd
      let etb? : Option (List StackItem) :=
        match env.registry with
        | some reg => check_triggers reg s3 .etb (some cardAfter) none
        | none => some []
      match etb? with
      | none => none
      | some etbItems =>
        let evokeItems : List StackItem :=
          if choicesGet action.choices "evoke" == some "true" ∧
              cardAfter.zone = Zone.battlefield then
            [{ source_card_id := some card.id
               source_card_name := card.name
               controller := item.controller
               description := "Evoke sacrifice: " ++ card.name
               is_ability := true
               action_data := some (.evokeSac (some card.id)) }]
          else []
        some ({ s3 with stack := s3.stack ++ etbItems ++ evokeItems }, res)

/-- `StackMixin.resolve_top_of_stack`: pop the last stack item and resolve it
(triggered ability, or the spell body above). -/
def resolve_top_of_stack (env : ResolveEnv) (s : GameState) :
    Option (GameState × ActionResult) :=
  match popLast s.stack with
  | none => some (s, { success := false })
  | some (init, item) =>
    let s1 : GameState := { s with stack := init }
    if item.is_ability then resolve_triggered_ability env s1 item
    else
      match item.action_data with
      | none => none           -- Action(**None) raises
      | some (.evokeSac _) => none   -- Action(**evoke_dict) raises
      | some (.ofAction action) =>
        let cardLookup : Option (Option CardInstance) :=
          match item.card_instance with
          | some c => some (some c)
          | none =>
            match s1.getPlayer? item.controller with
            | none => none
            | some player => some (item.source_card_id.bind player.find_card)
        match cardLookup with
        | none => none
        | some none => some (s1, { success := false })
        | some (some card) => resolveSpellBody env s1 item action card

/-! ## Concrete states used by witnesses and counterexamples -/

/-- A resolver environment with the default trigger registry and no Tier-2
templates (the configuration `scripts/play.py` builds, restricted to cards
without a template). -/
def envDefault : ResolveEnv where
  templates := fun _ => none
  registry := some defaultRegistry
  chooseSearchTarget := fun _ _ => none

/-- A resolver environment with no registry (the `Resolver()` default). -/
def envNoRegistry : ResolveEnv where
  templates := fun _ => none
  registry := none
  chooseSearchTarget := fun _ _ => none

def bloodCryptDef : CardDefinition := { name := "Blood Crypt", card_types := [.land] }

def shockDef : CardDefinition :=
  { name := "Shock", mana_cost := "{R}", card_types := [.instant] }

def bowmastersDef : CardDefinition :=
  { name := "Orcish Bowmasters", mana_cost := "{1}{B}", card_types := [.creature]
    power := some 1, toughness := some 1 }

def theRackDef : CardDefinition :=
  { name := "The Rack", mana_cost := "{1}", card_types := [.artifact] }

def swampDef : CardDefinition := { name := "Swamp", card_types := [.land] }

def grizzlyDef : CardDefinition :=
  { name := "Grizzly Bears", mana_cost := "{1}{G}", card_types := [.creature]
    power := some 2, toughness := some 2 }

/-- C8 failing input: the caster's battlefield is a single untapped Blood
Crypt and the spell costs `\x7bR\x7d`. -/
def c8State : GameState :=
  { players :=
      [ { id := "p1", name := "Alice", cards :=
            [ { id := "bc1", definition := bloodCryptDef, zone := .battlefield
                owner := "p1", controller := "p1" }
            , { id := "sh1", definition := shockDef, zone := .hand
                owner := "p1", controller := "p1" } ] }
      , { id := "p2", name := "Bob" } ] }

def c8Cast : Action :=
  { type := .cast_spell, player_id := "p1", card_id := some "sh1", card_name := "Shock" }

/-- C1 counterexample input: spells A (Shock) then B (Orcish Bowmasters) on
the stack, a trigger registry present. -/
def c1CardA : CardInstance :=
  { id := "a1", definition := shockDef, zone := .stack, owner := "p1", controller := "p1" }

def c1CardB : CardInstance :=
  { id := "b1", definition := bowmastersDef, zone := .stack, owner := "p1", controller := "p1" }

def c1ItemA : StackItem :=
  { source_card_id := some "a1", source_card_name := "Shock", controller := "p1"
    card_instance := some c1CardA
    action_data := some (.ofAction
      { type := .cast_spell, player_id := "p1", card_id := some "a1", card_name := "Shock" }) }

def c1ItemB : StackItem :=
  { source_card_id := some "b1", source_card_name := "Orcish Bowmasters", controller := "p1"
    card_instance := some c1CardB
    action_data := some (.ofAction
      { type := .cast_spell, player_id := "p1", card_id := some "b1"
        card_name := "Orcish Bowmasters" }) }

def c1State : GameState :=
  { players :=
      [ { id := "p1", name := "Alice", cards := [c1CardA, c1CardB] }
      , { id := "p2", name := "Bob" } ]
    stack := [c1ItemA, c1ItemB] }

/-- C1 witness input: two instant spells A then B on the stack (no follow-up
trigger items are pushed when an instant resolves). -/
def c1ShockA : CardInstance :=
  { id := "sa", definition := shockDef, zone := .stack, owner := "p1", controller := "p1" }

def c1ShockB : CardInstance :=
  { id := "sb", definition := shockDef, zone := .stack, owner := "p1", controller := "p1" }

def c1ItemSA : StackItem :=
  { source_card_id := some "sa", source_card_name := "Shock", controller := "p1"
    card_instance := some c1ShockA
    action_data := some (.ofAction
      { type := .cast_spell, player_id := "p1", card_id := some "sa", card_name := "Shock" }) }

def c1ItemSB : StackItem :=
  { source_card_id := some "sb", source_card_name := "Shock", controller := "p1"
    card_instance := some c1ShockB
    action_data := some (.ofAction
      { type := .cast_spell, player_id := "p1", card_id := some "sb", card_name := "Shock" }) }

def c1TwoInstants : GameState :=
  { players :=
      [ { id := "p1", name := "Alice", cards := [c1ShockA, c1ShockB] }
      , { id := "p2", name := "Bob" } ]
    stack := [c1ItemSA, c1ItemSB] }

/-- C9 counterexample input: `The Rack` controlled by the active player
(`active_player_index = 0`), opponent's hand empty. -/
def c9RackCard : CardInstance :=
  { id := "r1", definition := theRackDef, zone := .battlefield
    owner := "p1", controller := "p1" }

def c9State : GameState :=
  { players :=
      [ { id := "p1", name := "Alice", cards := [c9RackCard] }
      , { id := "p2", name := "Bob" } ]
    active_player_index := 0 }

/-- The same board during the opponent's upkeep (`active_player_index = 1`). -/
def c9StateOpp : GameState :=
  { players :=
      [ { id := "p1", name := "Alice", cards := [c9RackCard] }
      , { id := "p2", name := "Bob" } ]
    active_player_index := 1 }

/-- The Rack board with the opponent holding three cards. -/
def c9StateHand3 : GameState :=
  { players :=
      [ { id := "p1", name := "Alice", cards := [c9RackCard] }
      , { id := "p2", name := "Bob", cards :=
          [ { id := "h1", definition := swampDef, zone := .hand, owner := "p2", controller := "p2" }
          , { id := "h2", definition := swampDef, zone := .hand, owner := "p2", controller := "p2" }
          , { id := "h3", definition := swampDef, zone := .hand, owner := "p2", controller := "p2" } ] } ]
    active_player_index := 1 }

/-- A two-player state with no lands at all (auto-tap must fail for any
colored cost). -/
def c3State : GameState :=
  { players := [ { id := "p1", name := "Alice" }, { id := "p2", name := "Bob" } ] }

/-- An untapped, unblocked 2/2 attacker on p1's battlefield. -/
def c5Attacker : CardInstance :=
  { id := "atk", definition := grizzlyDef, zone := .battlefield
    owner := "p1", controller := "p1" }

def c5State : GameState :=
  { players :=
      [ { id := "p1", name := "Alice", cards := [c5Attacker] }
      , { id := "p2", name := "Bob" } ] }

/-- A tapped creature and an untapped summoning-sick creature (C10 inputs). -/
def c10Tapped : CardInstance :=
  { id := "t1", definition := grizzlyDef, zone := .battlefield
    owner := "p1", controller := "p1", tapped := true }

def c10Sick : CardInstance :=
  { id := "s1", definition := grizzlyDef, zone := .battlefield
    owner := "p1", controller := "p1", sick := true }

def c10Ready : CardInstance :=
  { id := "r1", definition := grizzlyDef, zone := .battlefield
    owner := "p1", controller := "p1" }

def c10State : GameState :=
  { players :=
      [ { id := "p1", name := "Alice", cards := [c10Tapped, c10Sick, c10Ready] }
      , { id := "p2", name := "Bob" } ] }

def c10AttackReady : Action :=
  { type := .attack, player_id := "p1", card_id := some "r1", card_name := "Grizzly Bears" }

def c10AttackTapped : Action :=
  { type := .attack, player_id := "p1", card_id := some "t1", card_name := "Grizzly Bears" }

/-- C2 inputs: a spell on the stack whose only target has moved to a
graveyard. -/
def c2Card : CardInstance :=
  { id := "fz1", definition := shockDef, zone := .stack, owner := "p1", controller := "p1" }

def c2TargetCard : CardInstance :=
  { id := "tg1", definition := grizzlyDef, zone := .graveyard, owner := "p2", controller := "p2" }

def c2Item : StackItem :=
  { source_card_id := some "fz1", source_card_name := "Shock", controller := "p1"
    targets := ["tg1"]
    card_instance := some c2Card
    action_data := some (.ofAction
      { type := .cast_spell, player_id := "p1", card_id := some "fz1", card_name := "Shock"
        targets := ["tg1"] }) }

def c2State : GameState :=
  { players :=
      [ { id := "p1", name := "Alice", cards := [c2Card] }
      , { id := "p2", name := "Bob", cards := [c2TargetCard] } ]
    stack := [c2Item] }

/-- C4 inputs: an indestructible 0-toughness creature (dies to the SBA pass)
and an indestructible creature carrying lethal marked damage (survives). -/
def c4ZeroToughness : CardInstance :=
  { id := "zt"
    definition := { name := "Zero Myr", card_types := [.creature], power := some 0
                    toughness := some 0, keywords := ["Indestructible"] }
    zone := .battlefield, owner := "p1", controller := "p1" }

def c4DamagedIndestructible : CardInstance :=
  { id := "di"
    definition := { name := "Darksteel Myr", card_types := [.creature], power := some 0
                    toughness := some 1, keywords := ["Indestructible"] }
    zone := .battlefield, owner := "p1", controller := "p1", damage_marked := 5 }

def c4State : GameState :=
  { players :=
      [ { id := "p1", name := "Alice", cards := [c4ZeroToughness, c4DamagedIndestructible] }
      , { id := "p2", name := "Bob" } ] }

/-- C6 inputs: two same-name legendary lands under one player, one more under
the opponent. -/
def urborgLegendDef : CardDefinition :=
  { name := "Urborg, Tomb of Yawgmoth", type_line := "Legendary Land", card_types := [.land] }

def c6u1 : CardInstance :=
  { id := "u1", definition := urborgLegendDef, zone := .battlefield
    owner := "p1", controller := "p1" }

def c6u2 : CardInstance :=
  { id := "u2", definition := urborgLegendDef, zone := .battlefield
    owner := "p1", controller := "p1" }

def c6u3 : CardInstance :=
  { id := "u3", definition := urborgLegendDef, zone := .battlefield
    owner := "p2", controller := "p2" }

def c6State : GameState :=
  { players :=
      [ { id := "p1", name := "Alice", cards := [c6u1, c6u2] }
      , { id := "p2", name := "Bob", cards := [c6u3] } ] }

/-- A Tier-2 template leaves the stack untouched (true of every template in
the repository: none of them reads or writes `state.stack`). -/
def TemplatePreservesStack (tpl : TemplateFn) : Prop :=
  ∀ s a c out, tpl s a c = some out → out.1.stack = s.stack

/-- All templates of an environment preserve the stack. -/
def EnvTemplatesPreserveStack (env : ResolveEnv) : Prop :=
  ∀ name tpl, env.templates name = some tpl → TemplatePreservesStack tpl

/-- The per-player effect of one SBA pass on that player alone: the life-loss
flag, then the card passes. -/
def sbaPlayerLocal (p : PlayerState) : PlayerState :=
  let p1 := if p.life ≤ 0 ∧ ¬p.has_lost then { p with has_lost := true } else p
  { p1 with cards := (sba_cards p1.cards).1 }

/-- The three per-card zone checks of one SBA pass (creature, saga,
planeswalker), composed. -/
def chain1 (c : CardInstance) : CardInstance :=
  (pw_step_card (saga_step_card (creature_step_card c).1).1).1

/-- The state invariant established by one full SBA pass: dead-on-life players
are flagged, a flagged player implies game over, and every player's cards are
a fixed point of the card passes. -/
def sbaInv (s : GameState) : Prop :=
  ∀ i p, s.players.get? i = some p →
    (p.life ≤ 0 → p.has_lost = true) ∧
    (p.has_lost = true → s.game_over = true) ∧
    sba_cards p.cards = (p.cards, [])

/-! ## Shared lemmas -/

theorem updateCard_stack (s : GameState) (cid : String) (f : CardInstance → CardInstance) :
    (s.updateCard cid f).stack = s.stack := rfl

theorem setCardZone_stack (s : GameState) (cid : String) (z : Zone) :
    (s.setCardZone cid z).stack = s.stack := rfl

theorem setPlayerById_stack (s : GameState) (pid : String) (p : PlayerState) :
    (s.setPlayerById pid p).stack = s.stack := rfl

/-- `auto_tap_lands` returning `False` leaves the state untouched: both
failure exits happen during the pure planning phase. -/
theorem auto_tap_lands_false {s : GameState} {pid cost : String} {s' : GameState}
    (h : auto_tap_lands s pid cost = some (false, s')) : s' = s := by
  unfold auto_tap_lands at h
  split at h
  · exact Option.noConfusion h
  · split at h
    · exact Option.noConfusion h
    · simp only [] at h
      split at h
      · injection h with h1
        injection h1 with _ h3
        exact h3.symm
      · split at h
        · injection h with h1
          injection h1 with _ h3
          exact h3.symm
        · injection h with h1
          injection h1 with h2 _
          exact absurd h2 (by simp)

/-- A player found by `getPlayer?` carries the looked-up id. -/
theorem getPlayer?_id {s : GameState} {pid : String} {p : PlayerState}
    (h : s.getPlayer? pid = some p) : p.id = pid := by
  have := List.find?_some h
  simpa using this

/-- `find?` by id commutes with mapping an id-preserving function. -/
theorem find?_map_of_id_pres (l : List PlayerState) (g : PlayerState → PlayerState)
    (hg : ∀ q, (g q).id = q.id) (pid : String) :
    (l.map g).find? (fun p => p.id == pid) =
      (l.find? (fun p => p.id == pid)).map g := by
  induction l with
  | nil => rfl
  | cons q t ih =>
    simp only [List.map_cons, List.find?, hg q]
    cases hq : (q.id == pid) with
    | true => rfl
    | false => exact ih

/-- `getPlayer?` after `setPlayerById pid p` (with `p.id = pid`): the found
player is rewritten pointwise. -/
theorem getPlayer?_setPlayerById {s : GameState} {pid : String} {p : PlayerState}
    (hid : p.id = pid) (pid' : String) :
    (s.setPlayerById pid p).getPlayer? pid' =
      (s.getPlayer? pid').map (fun q => if q.id == pid then p else q) := by
  have hg : ∀ q : PlayerState, ((fun q => if q.id == pid then p else q) q).id = q.id := by
    intro q
    by_cases hq : (q.id == pid) = true
    · simp [hq, hid, (by simpa using hq : q.id = pid)]
    · simp [hq]
  simpa [GameState.setPlayerById, GameState.getPlayer?] using
    find?_map_of_id_pres s.players (fun q => if q.id == pid then p else q) hg pid'

/-- `getPlayer?` after `updateCard`: the found player's cards are rewritten. -/
theorem getPlayer?_updateCard (s : GameState) (cid : String)
    (f : CardInstance → CardInstance) (pid : String) :
    (s.updateCard cid f).getPlayer? pid =
      (s.getPlayer? pid).map (fun p =>
        { p with cards := p.cards.map (fun c => if c.id == cid then f c else c) }) := by
  simpa [GameState.updateCard, GameState.getPlayer?] using
    find?_map_of_id_pres s.players
      (fun p => { p with cards := p.cards.map (fun c => if c.id == cid then f c else c) })
      (fun _ => rfl) pid

/-! ## Claim theorems -/

/-- C3: auto-tap payment is atomic.  Whenever `auto_tap_lands` returns
`False` — that is, whenever it cannot fully satisfy both the colored-pip and
the generic requirements of the parsed cost from the player's untapped
lands — the resulting state is exactly the input state: no land's tapped flag
is set and no mana pool changes. -/
theorem c3_auto_tap_atomic (s : GameState) (pid cost : String) (r : Bool × GameState)
    (h : auto_tap_lands s pid cost = some r) (hfail : r.1 = false) : r.2 = s := by
  obtain ⟨b, s'⟩ := r
  cases hfail
  exact auto_tap_lands_false h

/-- Witness for C3: with no lands on the battlefield, auto-tapping for
`\x7bB\x7d` fails and returns the state unchanged. -/
theorem c3_auto_tap_atomic_witness :
    auto_tap_lands c3State "p1" "{B}" = some (false, c3State) := by
  obtain ⟨s', hs⟩ : ∃ s', auto_tap_lands c3State "p1" "{B}" = some (false, s') :=
    ⟨c3State, by rfl⟩
  have h2 : s' = c3State := c3_auto_tap_atomic c3State "p1" "{B}" (false, s') hs rfl
  rw [h2] at hs
  exact hs

/-- C8: the ManaPool non-negativity invariant fails in a reachable state.
With a single untapped Blood Crypt, casting a spell that costs `\x7bR\x7d`
succeeds (`auto_tap_lands` accepts the dual for the red pip), but
`_get_land_mana` produces only the dual's first color (black), so
`ManaPool.pay` drives the red counter to `-1`. -/
theorem c8_manapool_goes_negative :
    ((put_spell_on_stack c8State c8Cast).bind (fun r =>
      (r.1.getPlayer? "p1").map (fun p =>
        (r.2.success, p.mana_pool.red, p.mana_pool.black))))
      = some (true, -1, 1) := by rfl

/-- Counterexample for C9: the hardcoded fallback `resolve_upkeep_triggers`
applies The Rack's damage during its *controller's own* upkeep
(`active_player_index = 0` is the Rack's controller), contradicting "the
trigger never fires during its controller's own upkeep". -/
theorem c9_the_rack_counterexample :
    ((c9State.activePlayer?).map (fun p => p.id) = some "p1") ∧
    c9RackCard.controller = "p1" ∧
    ((c9State.getPlayer? "p2").map (fun p => p.life) = some 20) ∧
    ((resolve_upkeep_triggers c9State).bind (fun st =>
        (st.getPlayer? "p2").map (fun p => p.life)) = some 17) :=
  ⟨by rfl, by rfl, by rfl, by rfl⟩

/-- C9 (amended): via the trigger registry, The Rack fires only during the
opponent's upkeep — never during its controller's own — creating a trigger
exactly when the opponent's hand has fewer than 3 cards, whose resolution
makes that player lose `3 - hand_size` life (and nothing at 3 or more cards).
The hardcoded fallback `resolve_upkeep_triggers` applies the same damage rule
but during *every* upkeep, including its controller's own. -/
theorem c9_the_rack_amended :
    (∀ (s : GameState) (card : CardInstance) (opp ap : PlayerState),
       s.opponentOf? card.controller = some opp → s.activePlayer? = some ap →
       (ap.id == opp.id) = false → the_rack_trigger s card none = some none) ∧
    (∀ (s : GameState) (card : CardInstance) (opp ap : PlayerState),
       s.opponentOf? card.controller = some opp → s.activePlayer? = some ap →
       (ap.id == opp.id) = true →
       (3 ≤ opp.hand_size → the_rack_trigger s card none = some none) ∧
       (opp.hand_size < 3 → the_rack_trigger s card none = some (some
          { source_card_id := some card.id
            source_card_name := "The Rack"
            controller := card.controller
            description := "The Rack deals " ++ toString (3 - (opp.hand_size : Int))
              ++ " to " ++ opp.name
            targets := ["player:" ++ opp.id]
            is_ability := true }))) ∧
    (∀ (s : GameState) (item : StackItem) (t : String) (rest : List String)
        (target : PlayerState),
       item.targets = t :: rest → s.getPlayer? (strReplace t "player:" "") = some target →
       (3 ≤ target.hand_size → resolve_the_rack s item = some (s, { success := true })) ∧
       (target.hand_size < 3 → resolve_the_rack s item =
         some (s.setPlayerById target.id
           { target with life := target.life - (3 - (target.hand_size : Int)) },
           { success := true, tier_used := 2 }))) ∧
    ((resolve_upkeep_triggers c9State).bind (fun st =>
        (st.getPlayer? "p2").map (fun p => p.life)) = some 17) ∧
    ((resolve_upkeep_triggers c9StateOpp).bind (fun st =>
        (st.getPlayer? "p2").map (fun p => p.life)) = some 17) ∧
    ((resolve_upkeep_triggers c9StateHand3).bind (fun st =>
        (st.getPlayer? "p2").map (fun p => p.life)) = some 20) := by
  refine ⟨?_, ?_, ?_, by rfl, by rfl, by rfl⟩
  · intro s card opp ap h1 h2 hne
    simp only [the_rack_trigger, h1, h2]
    simp [bne, hne]
  · intro s card opp ap h1 h2 heq
    constructor
    · intro h3
      simp only [the_rack_trigger, h1, h2]
      simp [bne, heq, h3]
    · intro h3
      simp only [the_rack_trigger, h1, h2]
      simp [bne, heq, Nat.not_le.mpr h3]
  · intro s item t rest target hT hG
    constructor
    · intro h3
      simp only [resolve_the_rack, hT, hG]
      simp [h3]
    · intro h3
      simp only [resolve_the_rack, hT, hG]
      simp [Nat.not_le.mpr h3]

/-- Witness for C9: on a concrete board during the opponent's upkeep with an
empty opposing hand, the registry trigger fires, and on the controller's own
upkeep it does not. -/
theorem c9_the_rack_amended_witness :
    the_rack_trigger c9State c9RackCard none = some none ∧
    (∃ item, the_rack_trigger c9StateOpp c9RackCard none = some (some item) ∧
      item.targets = ["player:p2"] ∧ item.source_card_name = "The Rack" ∧
      item.is_ability = true) := by
  constructor
  · exact c9_the_rack_amended.1 c9State c9RackCard
      { id := "p2", name := "Bob" } { id := "p1", name := "Alice", cards := [c9RackCard] }
      (by rfl) (by rfl) (by rfl)
  · have hi :=
      (c9_the_rack_amended.2.1 c9StateOpp c9RackCard
        { id := "p2", name := "Bob" } { id := "p2", name := "Bob" }
        (by rfl) (by rfl) (by rfl)).2 (by decide)
    exact ⟨_, hi, rfl, rfl, rfl⟩

/-- `addLife` on the looked-up player bumps exactly that player's life. -/
theorem getPlayer?_addLife_same {s : GameState} {did : String} {dp : PlayerState}
    (h : s.getPlayer? did = some dp) (δ : Int) :
    (addLife s did δ).getPlayer? did = some { dp with life := dp.life + δ } := by
  unfold addLife
  rw [h]
  have hid : ({ dp with life := dp.life + δ } : PlayerState).id = did := by
    simpa using getPlayer?_id h
  rw [getPlayer?_setPlayerById hid did, h]
  simp [getPlayer?_id h]

/-- `addLife` keyed to a different id leaves the looked-up player alone. -/
theorem getPlayer?_addLife_ne {s : GameState} {aid did : String} {dp : PlayerState}
    (h : s.getPlayer? did = some dp) (hne : (dp.id == aid) = false) (δ : Int) :
    (addLife s aid δ).getPlayer? did = some dp := by
  unfold addLife
  cases hpa : s.getPlayer? aid with
  | none => exact h
  | some pa =>
    have hid : ({ pa with life := pa.life + δ } : PlayerState).id = aid := by
      simpa using getPlayer?_id hpa
    rw [getPlayer?_setPlayerById hid did, h]
    have hne' : ¬dp.id = aid := by simpa using hne
    simp [hne']

/-- C10: declaring an attacker fails (and changes nothing) for a tapped
creature or a summoning-sick creature without Haste; on success the creature's
id is appended to the attacker list, and the creature is tapped unless it has
Vigilance. -/
theorem c10_attack_declaration (s : GameState) (action : Action)
    (player : PlayerState) (card : CardInstance)
    (hp : s.getPlayer? action.player_id = some player)
    (hc : action.card_id.bind player.find_card = some card) :
    (card.tapped = true → resolve_attack s action = some (s, { success := false })) ∧
    (card.tapped = false → card.sick = true → has_keyword card "Haste" = false →
      resolve_attack s action = some (s, { success := false })) ∧
    (∀ s' res, resolve_attack s action = some (s', res) → res.success = true →
      s'.combat.attackers = s.combat.attackers ++ [card.id] ∧
      (has_keyword card "Vigilance" = false →
        s' = { s.updateCard card.id (fun c => { c with tapped := true }) with
               combat := { s.combat with attackers := s.combat.attackers ++ [card.id] } }) ∧
      (has_keyword card "Vigilance" = true →
        s' = { s with combat :=
                 { s.combat with attackers := s.combat.attackers ++ [card.id] } })) := by
  refine ⟨?_, ?_, ?_⟩
  · intro ht
    simp only [resolve_attack, hp, hc]
    simp [ht]
  · intro ht hsick hh
    simp only [resolve_attack, hp, hc]
    simp [ht, hsick, hh]
  · intro s' res h hres
    simp only [resolve_attack, hp, hc] at h
    by_cases ht : card.tapped
    · simp [ht] at h
      rw [← h.2] at hres
      exact absurd hres (by simp)
    · by_cases hsick : card.sick ∧ ¬(has_keyword card "Haste")
      · simp [ht, hsick.1, hsick.2] at h
        rw [← h.2] at hres
        exact absurd hres (by simp)
      · have hcond : (card.sick && !has_keyword card "Haste") = false := by
          rcases Decidable.not_and_iff_or_not.mp hsick with h1 | h1
          · simp [Bool.eq_false_iff.mpr h1]
          · simp [Decidable.not_not.mp h1]
        simp only [ht, if_false, Bool.false_eq_true, hcond] at h
        by_cases hv : has_keyword card "Vigilance"
        · simp [hv] at h
          obtain ⟨h1, h2⟩ := h
          subst h1
          exact ⟨rfl, fun hvf => absurd hv (by simp [hvf]), fun _ => rfl⟩
        · simp [hv] at h
          obtain ⟨h1, h2⟩ := h
          subst h1
          exact ⟨rfl, fun _ => rfl, fun hvt => absurd hvt (by simp [hv])⟩

/-- Witness for C10: a tapped Grizzly Bears cannot attack and the state is
untouched; an untapped, non-sick one attacks successfully, gets tapped, and is
appended to the attacker list. -/
theorem c10_attack_declaration_witness :
    resolve_attack c10State c10AttackTapped = some (c10State, { success := false }) ∧
    (∃ s', resolve_attack c10State c10AttackReady = some (s', { success := true }) ∧
      s'.combat.attackers = ["r1"]) := by
  constructor
  · exact (c10_attack_declaration c10State c10AttackTapped
      { id := "p1", name := "Alice", cards := [c10Tapped, c10Sick, c10Ready] }
      c10Tapped (by rfl) (by rfl)).1 rfl
  · obtain ⟨s', hs⟩ :
        ∃ s', resolve_attack c10State c10AttackReady = some (s', { success := true }) :=
      ⟨_, rfl⟩
    have hmain := (c10_attack_declaration c10State c10AttackReady
      { id := "p1", name := "Alice", cards := [c10Tapped, c10Sick, c10Ready] }
      c10Ready (by rfl) (by rfl)).2.2 s' { success := true } hs rfl
    exact ⟨s', hs, by simpa using hmain.1⟩

/-- C5: for every creature card instance, effective power and toughness equal
the base printed value plus `p1p1` counters, minus `m1m1_temp`, plus the
temporary pump; the SBA lethal-damage check computes exactly
`_effective_toughness`; and combat damage from an unblocked attacker reduces
the defending player's life by exactly the attacker's effective power, never
by its base power alone. -/
theorem c5_effective_stats :
    (∀ c : CardInstance, c.definition.is_creature = true →
       effective_power c = c.definition.power.getD 0 + dictGet c.counters "p1p1"
         - dictGet c.counters "m1m1_temp" + dictGet c.counters "pump_power_temp" ∧
       effective_toughness c = c.definition.toughness.getD 0 + dictGet c.counters "p1p1"
         - dictGet c.counters "m1m1_temp" + dictGet c.counters "pump_toughness_temp") ∧
    (∀ c : CardInstance, c.definition.is_creature = true →
       sba_toughness c = effective_toughness c) ∧
    (∀ (s : GameState) (att : CardInstance) (aid did : String) (dp : PlayerState),
       att.zone = Zone.battlefield → 0 < effective_power att →
       s.combat.blockers.filter (fun p => p.2 == att.id) = [] →
       s.getPlayer? did = some dp → (dp.id == aid) = false →
       ((deal_combat_damage s [att] aid did).getPlayer? did).map (fun p => p.life)
         = some (dp.life - effective_power att)) := by
  refine ⟨?_, ?_, ?_⟩
  · intro c hcr
    constructor
    · simp [effective_power, hcr]
    · simp [effective_toughness, hcr]
  · intro c hcr
    simp [sba_toughness, effective_toughness, hcr]
  · intro s att aid did dp hz hpow hb hdp hne
    unfold deal_combat_damage
    simp only [List.foldl_cons, List.foldl_nil]
    rw [show (att.zone != Zone.battlefield) = false by simp [hz]]
    simp only [Bool.false_eq_true, if_false]
    rw [if_neg (by omega), hb]
    simp only [List.map_nil, List.filterMap_nil, List.filter_nil, List.isEmpty_nil, if_true]
    have hsame := getPlayer?_addLife_same hdp (-(effective_power att))
    by_cases hl : has_keyword att "Lifelink"
    · simp only [hl, if_true]
      have hid2 : (({ dp with life := dp.life + -(effective_power att) } : PlayerState).id == aid)
          = false := hne
      rw [getPlayer?_addLife_ne hsame hid2 (effective_power att)]
      simp [sub_eq_add_neg]
    · simp only [hl, if_false, Bool.false_eq_true]
      rw [hsame]
      simp [sub_eq_add_neg]

/-! ### SBA machinery -/

theorem mapCollect_fst (f : CardInstance → CardInstance × Option SBAAction) :
    ∀ l : List CardInstance, (mapCollect f l).1 = l.map (fun c => (f c).1) := by
  intro l
  induction l with
  | nil => rfl
  | cons c rest ih => simp [mapCollect, ih]

theorem mapCollect_eq_self {f : CardInstance → CardInstance × Option SBAAction}
    {l : List CardInstance} (h : ∀ x ∈ l, f x = (x, none)) :
    mapCollect f l = (l, []) := by
  induction l with
  | nil => rfl
  | cons c rest ih =>
    simp only [mapCollect, h c (by simp)]
    rw [ih (fun x hx => h x (by simp [hx]))]
    rfl

theorem sba_cards_fst (cards : List CardInstance) :
    (sba_cards cards).1 = (legend_step (cards.map chain1)).1 := by
  unfold sba_cards chain1
  simp only [mapCollect_fst, List.map_map]
  rfl

theorem list_set_self : ∀ (l : List α) (i : Nat) (a : α),
    l.get? i = some a → l.set i a = l := by
  intro l
  induction l with
  | nil => intro i a h; cases h
  | cons x xs ih =>
    intro i a h
    cases i with
    | zero =>
      simp only [List.get?] at h
      injection h with h
      rw [h]
      rfl
    | succ n =>
      simp only [List.get?] at h
      simp only [List.set]
      rw [ih n a h]

theorem popLast_concat (a : α) : ∀ l : List α, popLast (l ++ [a]) = some (l, a) := by
  intro l
  induction l with
  | nil => rfl
  | cons x xs ih =>
    cases xs with
    | nil => rfl
    | cons y ys =>
      simp only [List.cons_append] at ih ⊢
      simp [popLast, ih]

theorem creature_step_dicho (c : CardInstance) :
    creature_step_card c = (c, none) ∨ (creature_step_card c).1.zone = Zone.graveyard := by
  unfold creature_step_card
  split
  · simp only []
    split
    · right; rfl
    · split
      · right; rfl
      · split
        · right; rfl
        · left; rfl
  · left; rfl

theorem saga_step_dicho (c : CardInstance) :
    saga_step_card c = (c, none) ∨ (saga_step_card c).1.zone = Zone.graveyard := by
  unfold saga_step_card
  split
  · right; rfl
  · left; rfl

theorem pw_step_dicho (c : CardInstance) :
    pw_step_card c = (c, none) ∨ (pw_step_card c).1.zone = Zone.graveyard := by
  unfold pw_step_card
  split
  · right; rfl
  · left; rfl

theorem creature_step_not_bf {c : CardInstance} (h : c.zone ≠ Zone.battlefield) :
    creature_step_card c = (c, none) := by
  unfold creature_step_card
  rw [if_neg (fun hh => h hh.1)]

theorem saga_step_not_bf {c : CardInstance} (h : c.zone ≠ Zone.battlefield) :
    saga_step_card c = (c, none) := by
  unfold saga_step_card
  rw [if_neg (fun hh => h hh.1)]

theorem pw_step_not_bf {c : CardInstance} (h : c.zone ≠ Zone.battlefield) :
    pw_step_card c = (c, none) := by
  unfold pw_step_card
  rw [if_neg (fun hh => h hh.1)]

/-- Every card is either left alone by all three per-card SBA checks, or ends
the chain in the graveyard. -/
theorem chain1_cases (c : CardInstance) :
    (chain1 c = c ∧ creature_step_card c = (c, none) ∧ saga_step_card c = (c, none) ∧
      pw_step_card c = (c, none)) ∨ (chain1 c).zone = Zone.graveyard := by
  unfold chain1
  rcases creature_step_dicho c with h1 | h1
  · simp only [h1]
    rcases saga_step_dicho c with h2 | h2
    · simp only [h2]
      rcases pw_step_dicho c with h3 | h3
      · simp only [h3]
        exact Or.inl ⟨trivial, trivial, trivial, trivial⟩
      · exact Or.inr h3
    · have hne : ((saga_step_card c).1).zone ≠ Zone.battlefield := by
        rw [h2]; intro hh; cases hh
      rw [pw_step_not_bf hne]
      exact Or.inr h2
  · have hne : ((creature_step_card c).1).zone ≠ Zone.battlefield := by
      rw [h1]; intro hh; cases hh
    rw [saga_step_not_bf hne]
    rw [pw_step_not_bf hne]
    exact Or.inr h1

theorem chain1_stable (c : CardInstance) :
    creature_step_card (chain1 c) = (chain1 c, none) ∧
    saga_step_card (chain1 c) = (chain1 c, none) ∧
    pw_step_card (chain1 c) = (chain1 c, none) := by
  rcases chain1_cases c with ⟨hc, h1, h2, h3⟩ | hgy
  · rw [hc]; exact ⟨h1, h2, h3⟩
  · have hne : (chain1 c).zone ≠ Zone.battlefield := by rw [hgy]; intro hh; cases hh
    exact ⟨creature_step_not_bf hne, saga_step_not_bf hne, pw_step_not_bf hne⟩

/-- A card that is not a creature, saga, or planeswalker passes through the
three per-card checks unchanged. -/
theorem chain1_id_of {c : CardInstance} (h1 : c.definition.is_creature = false)
    (h2 : c.definition.is_saga = false) (h3 : c.definition.is_planeswalker = false) :
    chain1 c = c := by
  have hc1 : creature_step_card c = (c, none) := by
    unfold creature_step_card
    rw [if_neg (fun hh => absurd hh.2 (by simp [h1]))]
  have hc2 : saga_step_card c = (c, none) := by
    unfold saga_step_card
    rw [if_neg (fun hh => absurd hh.2.1 (by simp [h2]))]
  have hc3 : pw_step_card c = (c, none) := by
    unfold pw_step_card
    rw [if_neg (fun hh => absurd hh.2.1 (by simp [h3]))]
  unfold chain1
  simp only [hc1, hc2, hc3]

/-- Killed cards are never battlefield legendaries. -/
theorem is_legend_bf_killed (y : CardInstance) :
    is_legend_bf { y with zone := Zone.graveyard } = false := rfl

theorem legend_member : ∀ (l : List CardInstance) (x : CardInstance),
    x ∈ (legend_step l).1 → x ∈ l ∨ ∃ y ∈ l, x = { y with zone := Zone.graveyard } := by
  intro l
  induction l with
  | nil => intro x hx; cases hx
  | cons c rest ih =>
    intro x hx
    simp only [legend_step] at hx
    by_cases hc : is_legend_bf c ∧ rest.any (fun d => is_legend_bf d && d.name == c.name)
    · rw [if_pos hc] at hx
      rcases List.mem_cons.mp hx with h | h
      · exact Or.inr ⟨c, by simp, h⟩
      · rcases ih x h with h' | ⟨y, hy, hxy⟩
        · exact Or.inl (by simp [h'])
        · exact Or.inr ⟨y, by simp [hy], hxy⟩
    · rw [if_neg hc] at hx
      rcases List.mem_cons.mp hx with h | h
      · exact Or.inl (by simp [h])
      · rcases ih x h with h' | ⟨y, hy, hxy⟩
        · exact Or.inl (by simp [h'])
        · exact Or.inr ⟨y, by simp [hy], hxy⟩

theorem legend_all_notP {l : List CardInstance} {nm : String}
    (h : ∀ y ∈ l, (is_legend_bf y && y.name == nm) = false) :
    ∀ x ∈ (legend_step l).1, (is_legend_bf x && x.name == nm) = false := by
  intro x hx
  rcases legend_member l x hx with h' | ⟨y, _, rfl⟩
  · exact h x h'
  · rw [is_legend_bf_killed]
    rfl

/-- One legend-rule pass reaches a fixed point. -/
theorem legend_idem : ∀ l : List CardInstance,
    legend_step (legend_step l).1 = ((legend_step l).1, []) := by
  intro l
  induction l with
  | nil => rfl
  | cons c rest ih =>
    simp only [legend_step]
    by_cases hc : is_legend_bf c ∧ rest.any (fun d => is_legend_bf d && d.name == c.name)
    · rw [if_pos hc]
      simp only [legend_step, ih]
      rw [if_neg (fun hh => by
        rw [is_legend_bf_killed] at hh
        exact Bool.false_ne_true hh.1)]
    · rw [if_neg hc]
      simp only [legend_step, ih]
      have hcond : ¬(is_legend_bf c ∧
          ((legend_step rest).1).any (fun d => is_legend_bf d && d.name == c.name)) := by
        intro hh
        have hrest : rest.any (fun d => is_legend_bf d && d.name == c.name) = false := by
          cases hany : rest.any (fun d => is_legend_bf d && d.name == c.name) with
          | false => rfl
          | true => exact absurd ⟨hh.1, hany⟩ hc
        have hall : ∀ y ∈ rest, (is_legend_bf y && y.name == c.name) = false := by
          intro y hy
          cases hp : (is_legend_bf y && y.name == c.name) with
          | false => rfl
          | true =>
            have : rest.any (fun d => is_legend_bf d && d.name == c.name) = true :=
              List.any_eq_true.mpr ⟨y, hy, hp⟩
            rw [this] at hrest
            cases hrest
        rcases List.any_eq_true.mp hh.2 with ⟨x, hx, hPx⟩
        rw [legend_all_notP hall x hx] at hPx
        cases hPx
      rw [if_neg hcond]

/-- After a legend-rule pass, at most one battlefield legendary with any given
name survives. -/
theorem legend_count : ∀ (l : List CardInstance) (nm : String),
    (((legend_step l).1).filter (fun c => is_legend_bf c && c.name == nm)).length ≤ 1 := by
  intro l
  induction l with
  | nil => intro nm; simp [legend_step]
  | cons c rest ih =>
    intro nm
    simp only [legend_step]
    by_cases hc : is_legend_bf c ∧ rest.any (fun d => is_legend_bf d && d.name == c.name)
    · rw [if_pos hc]
      simp only [List.filter_cons]
      rw [show (is_legend_bf { c with zone := Zone.graveyard } &&
          ({ c with zone := Zone.graveyard } : CardInstance).name == nm) = false by
        rw [is_legend_bf_killed]; rfl]
      simpa using ih nm
    · rw [if_neg hc]
      simp only [List.filter_cons]
      cases hp : (is_legend_bf c && c.name == nm) with
      | false => simpa [hp] using ih nm
      | true =>
        have hp' : is_legend_bf c = true ∧ c.name = nm := by simpa using hp
        have hl : is_legend_bf c = true := hp'.1
        have hnm : c.name = nm := hp'.2
        have hrest : rest.any (fun d => is_legend_bf d && d.name == c.name) = false := by
          cases hany : rest.any (fun d => is_legend_bf d && d.name == c.name) with
          | false => rfl
          | true => exact absurd ⟨hl, hany⟩ hc
        have hall : ∀ y ∈ rest, (is_legend_bf y && y.name == nm) = false := by
          intro y hy
          rw [← hnm]
          cases hpy : (is_legend_bf y && y.name == c.name) with
          | false => rfl
          | true =>
            have : rest.any (fun d => is_legend_bf d && d.name == c.name) = true :=
              List.any_eq_true.mpr ⟨y, hy, hpy⟩
            rw [this] at hrest
            cases hrest
        have hnil : ((legend_step rest).1).filter
            (fun c => is_legend_bf c && c.name == nm) = [] := by
          rw [List.filter_eq_nil_iff]
          intro x hx
          simp [legend_all_notP hall x hx]
        simp [hp, hnil]

/-- Positional description of a legend-rule pass: the card at index `j` is
buried exactly when a later battlefield legendary shares its name. -/
theorem legend_step_get : ∀ (l : List CardInstance) (j : Nat),
    ((legend_step l).1).get? j = (l.get? j).map (fun c =>
      if is_legend_bf c ∧ (l.drop (j+1)).any (fun d => is_legend_bf d && d.name == c.name)
      then { c with zone := Zone.graveyard } else c) := by
  intro l
  induction l with
  | nil => intro j; rfl
  | cons c rest ih =>
    intro j
    cases j with
    | zero =>
      simp only [legend_step]
      by_cases hc : is_legend_bf c ∧ rest.any (fun d => is_legend_bf d && d.name == c.name)
      · rw [if_pos hc]
        simp only [List.get?_cons_zero, Option.map_some', List.drop_succ_cons,
          List.drop_zero]
        rw [if_pos hc]
      · rw [if_neg hc]
        simp only [List.get?_cons_zero, Option.map_some', List.drop_succ_cons,
          List.drop_zero]
        rw [if_neg hc]
    | succ n =>
      simp only [legend_step]
      by_cases hc : is_legend_bf c ∧ rest.any (fun d => is_legend_bf d && d.name == c.name)
      · rw [if_pos hc]
        simpa using ih n
      · rw [if_neg hc]
        simpa using ih n

/-- Cards stable under all four checks are a fixed point of `sba_cards`. -/
theorem sba_cards_of_stable {l : List CardInstance}
    (h1 : ∀ x ∈ l, creature_step_card x = (x, none))
    (h2 : ∀ x ∈ l, saga_step_card x = (x, none))
    (h3 : ∀ x ∈ l, pw_step_card x = (x, none))
    (h4 : legend_step l = (l, [])) :
    sba_cards l = (l, []) := by
  unfold sba_cards
  rw [mapCollect_eq_self h1]
  simp only []
  rw [mapCollect_eq_self h2]
  simp only []
  rw [mapCollect_eq_self h3]
  simp only []
  rw [h4]
  rfl

/-- The card passes of the SBA checker reach a fixed point in one pass. -/
theorem sba_cards_idem (cards : List CardInstance) :
    sba_cards (sba_cards cards).1 = ((sba_cards cards).1, []) := by
  have hO := sba_cards_fst cards
  have hmem : ∀ x ∈ (sba_cards cards).1,
      creature_step_card x = (x, none) ∧ saga_step_card x = (x, none) ∧
        pw_step_card x = (x, none) := by
    intro x hx
    rw [hO] at hx
    rcases legend_member _ x hx with hx' | ⟨y, _, rfl⟩
    · rcases List.mem_map.mp hx' with ⟨z, _, rfl⟩
      exact chain1_stable z
    · have hne : ({ y with zone := Zone.graveyard } : CardInstance).zone ≠ Zone.battlefield := by
        intro hh; cases hh
      exact ⟨creature_step_not_bf hne, saga_step_not_bf hne, pw_step_not_bf hne⟩
  refine sba_cards_of_stable (fun x hx => (hmem x hx).1) (fun x hx => (hmem x hx).2.1)
    (fun x hx => (hmem x hx).2.2) ?_
  rw [hO]
  exact legend_idem (cards.map chain1)

theorem list_get?_set_eq (l : List α) (a : α) :
    ∀ i, (l.set i a).get? i = (l.get? i).map (fun _ => a) := by
  induction l with
  | nil => intro i; cases i <;> rfl
  | cons x xs ih =>
    intro i
    cases i with
    | zero => rfl
    | succ n =>
      simp only [List.set, List.get?]
      exact ih n

theorem list_get?_set_ne (l : List α) (a : α) :
    ∀ i k, i ≠ k → (l.set i a).get? k = l.get? k := by
  induction l with
  | nil => intro i k _; cases i <;> rfl
  | cons x xs ih =>
    intro i k h
    cases i with
    | zero =>
      cases k with
      | zero => exact absurd rfl h
      | succ m => rfl
    | succ n =>
      cases k with
      | zero => rfl
      | succ m =>
        simp only [List.set, List.get?]
        exact ih n m (fun hh => h (by rw [hh]))

theorem sbaPlayerLocal_life (q : PlayerState) : (sbaPlayerLocal q).life = q.life := by
  unfold sbaPlayerLocal
  simp only []
  split <;> rfl

theorem sbaPlayerLocal_cards (q : PlayerState) :
    (sbaPlayerLocal q).cards = (sba_cards q.cards).1 := by
  unfold sbaPlayerLocal
  simp only []
  split <;> rfl

theorem sbaPlayerLocal_has_lost (q : PlayerState) :
    (sbaPlayerLocal q).has_lost =
      (if q.life ≤ 0 ∧ ¬q.has_lost = true then true else q.has_lost) := by
  unfold sbaPlayerLocal
  simp only []
  split <;> rfl

/-- The player list after one `sbaStep`: only index `i` changes, to
`sbaPlayerLocal` of the old player. -/
theorem sbaStep_players (s : GameState) (acc : List SBAAction) (i : Nat) :
    (sbaStep s acc i).1.players =
      (match s.players.get? i with
       | none => s.players
       | some p => s.players.set i (sbaPlayerLocal p)) := by
  unfold sbaStep
  cases hp : s.players.get? i with
  | none => rfl
  | some p =>
    simp only []
    by_cases h1 : p.life ≤ 0 ∧ ¬p.has_lost = true
    · rw [if_pos h1]
      simp only []
      split
      · rw [List.set_set]
        unfold sbaPlayerLocal
        rw [if_pos h1]
      · rw [List.set_set]
        unfold sbaPlayerLocal
        rw [if_pos h1]
    · rw [if_neg h1]
      simp only []
      split
      · rw [List.set_set]
        unfold sbaPlayerLocal
        rw [if_neg h1]
      · rw [List.set_set]
        unfold sbaPlayerLocal
        rw [if_neg h1]

theorem sbaStep_players_get (s : GameState) (acc : List SBAAction) (i k : Nat) :
    (sbaStep s acc i).1.players.get? k =
      (if k = i then (s.players.get? i).map sbaPlayerLocal else s.players.get? k) := by
  rw [sbaStep_players]
  cases hp : s.players.get? i with
  | none =>
    simp only []
    by_cases hk : k = i
    · subst hk
      rw [if_pos rfl, hp]
      rfl
    · rw [if_neg hk]
  | some p =>
    simp only []
    by_cases hk : k = i
    · subst hk
      rw [if_pos rfl, list_get?_set_eq, hp]
      rfl
    · rw [if_neg hk, list_get?_set_ne _ _ _ _ (fun hh => hk hh.symm)]

theorem sbaStep_gameOver_mono {s : GameState} {acc : List SBAAction} {i : Nat}
    (h : s.game_over = true) : (sbaStep s acc i).1.game_over = true := by
  unfold sbaStep
  cases hp : s.players.get? i with
  | none => exact h
  | some p =>
    simp only []
    split <;> split <;> first | rfl | exact h

theorem sbaStep_gameOver_of_lost {s : GameState} {acc : List SBAAction} {i : Nat}
    {p : PlayerState} (hp : s.players.get? i = some p)
    (hl : (sbaPlayerLocal p).has_lost = true) : (sbaStep s acc i).1.game_over = true := by
  unfold sbaStep
  rw [hp]
  simp only []
  rw [sbaPlayerLocal_has_lost] at hl
  by_cases h1 : p.life ≤ 0 ∧ ¬p.has_lost = true
  · rw [if_pos h1]
    simp only []
    by_cases hgo : s.game_over = true
    · rw [if_neg (fun hh => hh.2 hgo)]
      exact hgo
    · rw [if_pos ⟨by simp, hgo⟩]
  · rw [if_neg h1]
    simp only []
    rw [if_neg h1] at hl
    by_cases hgo : s.game_over = true
    · rw [if_neg (fun hh => hh.2 hgo)]
      exact hgo
    · rw [if_pos ⟨hl, hgo⟩]

/-- Folding `sbaStep` over distinct indices rewrites exactly those players. -/
theorem sba_fold_players_get : ∀ (idxs : List Nat) (s0 : GameState)
    (acc : List SBAAction) (k : Nat), idxs.Nodup →
    ((idxs.foldl (fun st i => sbaStep st.1 st.2 i) (s0, acc)).1.players.get? k) =
      (if k ∈ idxs then (s0.players.get? k).map sbaPlayerLocal else s0.players.get? k) := by
  intro idxs
  induction idxs with
  | nil => intro s0 acc k _; simp
  | cons j rest ih =>
    intro s0 acc k hnd
    have hj : j ∉ rest := (List.nodup_cons.mp hnd).1
    have hr : rest.Nodup := (List.nodup_cons.mp hnd).2
    simp only [List.foldl_cons]
    rw [ih (sbaStep s0 acc j).1 (sbaStep s0 acc j).2 k hr]
    by_cases hk : k ∈ rest
    · have hkj : k ≠ j := fun hh => hj (hh ▸ hk)
      rw [if_pos hk, if_pos (List.mem_cons.mpr (Or.inr hk)), sbaStep_players_get,
        if_neg hkj]
    · by_cases hkj : k = j
      · subst hkj
        rw [if_neg hk, if_pos (List.mem_cons.mpr (Or.inl rfl)), sbaStep_players_get,
          if_pos rfl]
      · rw [if_neg hk, if_neg (fun hh => by
          rcases List.mem_cons.mp hh with h' | h'
          · exact hkj h'
          · exact hk h'), sbaStep_players_get, if_neg hkj]

theorem sba_fold_gameOver_mono : ∀ (idxs : List Nat) (s0 : GameState)
    (acc : List SBAAction), s0.game_over = true →
    ((idxs.foldl (fun st i => sbaStep st.1 st.2 i) (s0, acc)).1.game_over) = true := by
  intro idxs
  induction idxs with
  | nil => intro s0 acc h; exact h
  | cons j rest ih =>
    intro s0 acc h
    simp only [List.foldl_cons]
    exact ih _ _ (sbaStep_gameOver_mono h)

/-- After folding over distinct indices, a processed player with the lost flag
forces the game-over flag. -/
theorem sba_fold_lost_gameOver : ∀ (idxs : List Nat) (s0 : GameState)
    (acc : List SBAAction), idxs.Nodup → ∀ k ∈ idxs, ∀ p,
    ((idxs.foldl (fun st i => sbaStep st.1 st.2 i) (s0, acc)).1.players.get? k) = some p →
    p.has_lost = true →
    ((idxs.foldl (fun st i => sbaStep st.1 st.2 i) (s0, acc)).1.game_over) = true := by
  intro idxs
  induction idxs with
  | nil => intro s0 acc _ k hk; cases hk
  | cons j rest ih =>
    intro s0 acc hnd k hk p hp hl
    have hj : j ∉ rest := (List.nodup_cons.mp hnd).1
    have hr : rest.Nodup := (List.nodup_cons.mp hnd).2
    simp only [List.foldl_cons] at hp ⊢
    rcases List.mem_cons.mp hk with hkj | hkr
    · subst hkj
      rw [sba_fold_players_get rest _ _ k hr, if_neg hj, sbaStep_players_get,
        if_pos rfl] at hp
      cases hq : s0.players.get? k with
      | none => rw [hq] at hp; cases hp
      | some q =>
        rw [hq] at hp
        injection hp with hp
        have hlost : (sbaPlayerLocal q).has_lost = true := by rw [hp]; exact hl
        exact sba_fold_gameOver_mono rest _ _ (sbaStep_gameOver_of_lost hq hlost)
    · exact ih _ _ hr k hkr p hp hl

/-- One full SBA pass rewrites every player by `sbaPlayerLocal`. -/
theorem checkSBA_players_get (s : GameState) (k : Nat) :
    (check_state_based_actions s).1.players.get? k =
      (s.players.get? k).map sbaPlayerLocal := by
  unfold check_state_based_actions
  rw [sba_fold_players_get _ _ _ _ (List.nodup_range _)]
  by_cases hk : k ∈ List.range s.players.length
  · rw [if_pos hk]
  · rw [if_neg hk]
    have : s.players.length ≤ k := by simpa using List.mem_range.not.mp hk
    rw [List.get?_eq_none.mpr this]
    rfl

/-- One full SBA pass establishes the SBA invariant. -/
theorem checkSBA_establishes_inv (s : GameState) :
    sbaInv (check_state_based_actions s).1 := by
  intro i p hp
  rw [checkSBA_players_get] at hp
  cases hq : s.players.get? i with
  | none => rw [hq] at hp; cases hp
  | some q =>
    rw [hq] at hp
    injection hp with hp
    refine ⟨?_, ?_, ?_⟩
    · intro hlife
      rw [← hp] at hlife ⊢
      rw [sbaPlayerLocal_life] at hlife
      rw [sbaPlayerLocal_has_lost]
      by_cases h1 : q.life ≤ 0 ∧ ¬q.has_lost = true
      · simp [h1]
      · rw [if_neg h1]
        rcases Decidable.not_and_iff_or_not.mp h1 with h2 | h2
        · exact absurd hlife h2
        · exact Decidable.not_not.mp h2
    · intro hlost
      have hi : i < s.players.length := by
        by_contra hno
        rw [List.get?_eq_none.mpr (Nat.le_of_not_lt hno)] at hq
        cases hq
      unfold check_state_based_actions
      refine sba_fold_lost_gameOver _ _ _ (List.nodup_range _) i
        (List.mem_range.mpr hi) p ?_ hlost
      show (check_state_based_actions s).1.players.get? i = some p
      rw [checkSBA_players_get, hq, Option.map_some', hp]
    · rw [← hp, sbaPlayerLocal_cards]
      exact sba_cards_idem q.cards

/-- On a state satisfying the SBA invariant, one `sbaStep` changes nothing
and emits nothing. -/
theorem sbaStep_id_of_inv {s : GameState} (hinv : sbaInv s) (acc : List SBAAction)
    (i : Nat) : sbaStep s acc i = (s, acc) := by
  unfold sbaStep
  cases hp : s.players.get? i with
  | none => rfl
  | some p =>
    obtain ⟨h1, h2, h3⟩ := hinv i p hp
    simp only []
    have hc1 : ¬(p.life ≤ 0 ∧ ¬p.has_lost = true) := fun hh => hh.2 (h1 hh.1)
    rw [if_neg hc1]
    simp only []
    have hc2 : ¬(p.has_lost = true ∧
        ¬({ s with players := s.players.set i p } : GameState).game_over = true) :=
      fun hh => hh.2 (h2 hh.1)
    rw [if_neg hc2]
    rw [h3]
    simp only []
    rw [List.set_set]
    rw [list_set_self s.players i _ hp]
    rw [List.append_nil, List.append_nil, List.append_nil]

theorem sba_fold_id : ∀ (idxs : List Nat) (s : GameState) (acc : List SBAAction),
    sbaInv s →
    idxs.foldl (fun st i => sbaStep st.1 st.2 i) (s, acc) = (s, acc) := by
  intro idxs
  induction idxs with
  | nil => intro s acc _; rfl
  | cons j rest ih =>
    intro s acc hinv
    simp only [List.foldl_cons]
    rw [sbaStep_id_of_inv hinv acc j]
    exact ih s acc hinv

/-- A state satisfying the SBA invariant is a fixed point of the checker. -/
theorem checkSBA_id_of_inv {s : GameState} (hinv : sbaInv s) :
    check_state_based_actions s = (s, []) := by
  unfold check_state_based_actions
  exact sba_fold_id _ s [] hinv

/-- C7: the SBA checker reaches a fixed point in a single pass — immediately
after any call to `check_state_based_actions`, a second invocation returns an
empty action list and changes nothing. -/
theorem c7_sba_fixed_point (s : GameState) :
    check_state_based_actions (check_state_based_actions s).1
      = ((check_state_based_actions s).1, []) :=
  checkSBA_id_of_inv (checkSBA_establishes_inv s)

/-- Witness for C5: a plain Grizzly Bears has effective power 2 and, attacking
unblocked, deals exactly 2 to the defender, whose life drops from 20 to 18. -/
theorem c5_effective_stats_witness :
    effective_power c5Attacker = 2 ∧
    sba_toughness c5Attacker = effective_toughness c5Attacker ∧
    ((deal_combat_damage c5State [c5Attacker] "p1" "p2").getPlayer? "p2").map
      (fun p => p.life) = some 18 := by
  have h1 := (c5_effective_stats.1 c5Attacker rfl).1
  have h2 := c5_effective_stats.2.1 c5Attacker rfl
  have h3 := c5_effective_stats.2.2 c5State c5Attacker "p1" "p2"
    { id := "p2", name := "Bob" } rfl (by decide) rfl rfl rfl
  refine ⟨by rw [h1]; rfl, h2, by rw [h3]; rfl⟩

theorem list_get?_map (f : α → β) : ∀ (l : List α) (n : Nat),
    (l.map f).get? n = (l.get? n).map f := by
  intro l
  induction l with
  | nil => intro n; cases n <;> rfl
  | cons x xs ih =>
    intro n
    cases n with
    | zero => rfl
    | succ m =>
      simp only [List.map_cons, List.get?]
      exact ih m

/-- C4: a battlefield creature with computed toughness ≤ 0 is sent to the
graveyard by the SBA pass even when Indestructible, while an Indestructible
creature with positive computed toughness survives the pass even with lethal
marked damage or a deathtouch damage flag (stated for cards that no other SBA
check touches: non-saga, non-planeswalker, non-legendary). -/
theorem c4_sba_creature_deaths (s : GameState) (i j : Nat) (p : PlayerState)
    (c : CardInstance)
    (hp : s.players.get? i = some p) (hc : p.cards.get? j = some c)
    (hbf : c.zone = Zone.battlefield) (hcr : c.definition.is_creature = true) :
    (sba_toughness c ≤ 0 →
      ((check_state_based_actions s).1.players.get? i).map
        (fun q => q.cards.get? j) = some (some { c with zone := Zone.graveyard })) ∧
    (c.definition.keywords.contains "Indestructible" = true →
      0 < sba_toughness c →
      (sba_toughness c ≤ c.damage_marked ∨
        dictTruthy c.counters "deathtouch_damage" = true) →
      c.definition.is_saga = false → c.definition.is_planeswalker = false →
      c.definition.is_legendary = false →
      ((check_state_based_actions s).1.players.get? i).map
        (fun q => q.cards.get? j) = some (some c)) := by
  have hP : (check_state_based_actions s).1.players.get? i = some (sbaPlayerLocal p) := by
    rw [checkSBA_players_get, hp]
    rfl
  have hmapj : (p.cards.map chain1).get? j = some (chain1 c) := by
    rw [list_get?_map, hc]
    rfl
  have hcards : (sbaPlayerLocal p).cards.get? j
      = some (if is_legend_bf (chain1 c) ∧ ((p.cards.map chain1).drop (j+1)).any
            (fun d => is_legend_bf d && d.name == (chain1 c).name)
          then { chain1 c with zone := Zone.graveyard } else chain1 c) := by
    rw [sbaPlayerLocal_cards, sba_cards_fst, legend_step_get, hmapj, Option.map_some']
  constructor
  · intro ht
    have hchain : chain1 c = { c with zone := Zone.graveyard } := by
      unfold chain1
      have h1 : creature_step_card c = ({ c with zone := Zone.graveyard },
          some (SBAAction.diesZeroToughness c.name)) := by
        unfold creature_step_card
        rw [if_pos ⟨hbf, hcr⟩]
        simp only []
        rw [if_pos ht]
      rw [h1]
      have hne : ({ c with zone := Zone.graveyard } : CardInstance).zone
          ≠ Zone.battlefield := by
        intro hh
        cases hh
      rw [saga_step_not_bf hne, pw_step_not_bf hne]
    have hnl : is_legend_bf (chain1 c) = false := by
      rw [hchain]
      exact is_legend_bf_killed c
    have hcond : ¬(is_legend_bf (chain1 c) ∧ ((p.cards.map chain1).drop (j+1)).any
        (fun d => is_legend_bf d && d.name == (chain1 c).name)) := by
      intro hh
      rw [hnl] at hh
      exact Bool.false_ne_true hh.1
    rw [hP]
    simp only [Option.map_some']
    rw [hcards, if_neg hcond, hchain]
  · intro hind htpos _hlethal hsaga hpw hleg
    have hchain : chain1 c = c := by
      unfold chain1
      have h1 : creature_step_card c = (c, none) := by
        unfold creature_step_card
        rw [if_pos ⟨hbf, hcr⟩]
        simp only []
        rw [if_neg (by omega : ¬sba_toughness c ≤ 0)]
        rw [if_neg (fun hh => hh.2 hind)]
        rw [if_neg (fun hh => hh.2 hind)]
      rw [h1]
      have h2 : saga_step_card c = (c, none) := by
        unfold saga_step_card
        rw [if_neg (fun hh => by rw [hsaga] at hh; exact Bool.false_ne_true hh.2.1)]
      rw [h2]
      have h3 : pw_step_card c = (c, none) := by
        unfold pw_step_card
        rw [if_neg (fun hh => by rw [hpw] at hh; exact Bool.false_ne_true hh.2.1)]
      rw [h3]
    have hnl : is_legend_bf (chain1 c) = false := by
      rw [hchain]
      unfold is_legend_bf
      rw [hleg]
      simp
    have hcond : ¬(is_legend_bf (chain1 c) ∧ ((p.cards.map chain1).drop (j+1)).any
        (fun d => is_legend_bf d && d.name == (chain1 c).name)) := by
      intro hh
      rw [hnl] at hh
      exact Bool.false_ne_true hh.1
    rw [hP]
    simp only [Option.map_some']
    rw [hcards, if_neg hcond, hchain]

/-- Witness for C4: in `c4State`, the Indestructible 0/0 at position 0 of
Alice's cards dies to the SBA pass, while the Indestructible 0/1 carrying 5
marked damage at position 1 survives unchanged. -/
theorem c4_sba_creature_deaths_witness :
    ((check_state_based_actions c4State).1.players.get? 0).map
        (fun q => q.cards.get? 0)
      = some (some { c4ZeroToughness with zone := Zone.graveyard }) ∧
    ((check_state_based_actions c4State).1.players.get? 0).map
        (fun q => q.cards.get? 1)
      = some (some c4DamagedIndestructible) := by
  refine ⟨(c4_sba_creature_deaths c4State 0 0
      { id := "p1", name := "Alice", cards := [c4ZeroToughness, c4DamagedIndestructible] }
      c4ZeroToughness rfl rfl rfl (by decide)).1 (by decide),
    (c4_sba_creature_deaths c4State 0 1
      { id := "p1", name := "Alice", cards := [c4ZeroToughness, c4DamagedIndestructible] }
      c4DamagedIndestructible rfl rfl rfl (by decide)).2
      (by decide) (by decide) (Or.inl (by decide)) (by decide) (by decide) (by decide)⟩

theorem list_map_id_of (f : α → α) : ∀ l : List α, (∀ x ∈ l, f x = x) → l.map f = l := by
  intro l
  induction l with
  | nil => intro _; rfl
  | cons x xs ih =>
    intro h
    simp only [List.map_cons]
    rw [h x (by simp), ih (fun y hy => h y (by simp [hy]))]

/-- C6: the legend rule of one SBA pass, stated for a player whose cards the
creature/saga/planeswalker checks leave untouched.  (a) Afterwards at most one
battlefield legendary with any given name remains in that player's card list;
(b) the card at index `j` is buried exactly when a *later* battlefield
legendary of the same name exists in the same player's list — so the
most recently entered copy survives, every earlier same-name copy moves to the
graveyard, and copies held by other players are unaffected by this player's
group. -/
theorem c6_legend_rule (s : GameState) (i : Nat) (p : PlayerState)
    (hp : s.players.get? i = some p)
    (hstable : ∀ x ∈ p.cards, chain1 x = x) :
    ∀ q, (check_state_based_actions s).1.players.get? i = some q →
      (∀ nm, (q.cards.filter (fun c => is_legend_bf c && c.name == nm)).length ≤ 1) ∧
      (∀ j c, p.cards.get? j = some c →
        q.cards.get? j = some (
          if is_legend_bf c ∧ (p.cards.drop (j+1)).any
              (fun d => is_legend_bf d && d.name == c.name)
          then { c with zone := Zone.graveyard } else c)) := by
  intro q hq
  have hP : (check_state_based_actions s).1.players.get? i = some (sbaPlayerLocal p) := by
    rw [checkSBA_players_get, hp]
    rfl
  rw [hP] at hq
  injection hq with hq
  have hqcards : q.cards = (legend_step p.cards).1 := by
    rw [← hq, sbaPlayerLocal_cards, sba_cards_fst, list_map_id_of chain1 p.cards hstable]
  constructor
  · intro nm
    rw [hqcards]
    exact legend_count p.cards nm
  · intro j c hc
    rw [hqcards, legend_step_get, hc, Option.map_some']

/-- Witness for C6: in `c6State` Alice controls two copies of a legendary
land and Bob a third.  After the SBA pass Alice's earlier copy `u1` is in the
graveyard, her later copy `u2` survives, and Bob's copy `u3` survives. -/
theorem c6_legend_rule_witness :
    ((check_state_based_actions c6State).1.players.get? 0).map
        (fun q => q.cards.get? 0) = some (some { c6u1 with zone := Zone.graveyard }) ∧
    ((check_state_based_actions c6State).1.players.get? 0).map
        (fun q => q.cards.get? 1) = some (some c6u2) ∧
    ((check_state_based_actions c6State).1.players.get? 1).map
        (fun q => q.cards.get? 0) = some (some c6u3) := by
  obtain ⟨q1, hq1⟩ : ∃ q, (check_state_based_actions c6State).1.players.get? 0 = some q :=
    ⟨_, rfl⟩
  obtain ⟨q2, hq2⟩ : ∃ q, (check_state_based_actions c6State).1.players.get? 1 = some q :=
    ⟨_, rfl⟩
  have h1 := (c6_legend_rule c6State 0
    { id := "p1", name := "Alice", cards := [c6u1, c6u2] } rfl (by decide) q1 hq1).2
  have h2 := (c6_legend_rule c6State 1
    { id := "p2", name := "Bob", cards := [c6u3] } rfl (by decide) q2 hq2).2
  have e1 := h1 0 c6u1 rfl
  have e2 := h1 1 c6u2 rfl
  have e3 := h2 0 c6u3 rfl
  rw [if_pos (by decide)] at e1
  rw [if_neg (by decide)] at e2
  rw [if_neg (by decide)] at e3
  refine ⟨?_, ?_, ?_⟩
  · rw [hq1, Option.map_some', e1]
  · rw [hq1, Option.map_some', e2]
  · rw [hq2, Option.map_some', e3]

/-- C2: the fizzle check of `resolve_top_of_stack`.  (a) If the popped spell
declared at least one target and every declared target is a card id no player
still holds on a battlefield or in a hand, the spell's card is moved to the
graveyard and nothing else changes (the result state is exactly the popped
state with that one zone change).  (b) A target list containing a
`player:`-tag is never reported invalid, so a player-targeted spell never
takes the fizzle branch. -/
theorem c2_fizzle (env : ResolveEnv) (s : GameState) (init : List StackItem)
    (item : StackItem) (a : Action) (card : CardInstance)
    (hstack : s.stack = init ++ [item])
    (hab : item.is_ability = false)
    (hdata : item.action_data = some (.ofAction a))
    (hcard : item.card_instance = some card) :
    (item.targets ≠ [] →
      (∀ t ∈ item.targets, strStartsWith t "player:" = false ∧
        targetValidSomewhere s.players t = false) →
      resolve_top_of_stack env s =
        some ((({ s with stack := init } : GameState).setCardZone card.id Zone.graveyard),
          { success := true })) ∧
    (∀ targets : List String, (∃ t ∈ targets, strStartsWith t "player:" = true) →
      targets_invalid s targets = false) := by
  constructor
  · intro hne hall
    have hT : item.targets.isEmpty = false := by
      cases ht : item.targets with
      | nil => exact absurd ht hne
      | cons x xs => rfl
    have hinv : targets_invalid { s with stack := init } item.targets = true := by
      unfold targets_invalid
      rw [if_neg (by rw [hT]; exact Bool.false_ne_true)]
      rw [List.all_eq_true]
      intro t htmem
      obtain ⟨h1, h2⟩ := hall t htmem
      show (!(strStartsWith t "player:") && !(targetValidSomewhere s.players t)) = true
      rw [h1, h2]
      rfl
    unfold resolve_top_of_stack
    rw [hstack, popLast_concat]
    simp only []
    rw [if_neg (by rw [hab]; exact Bool.false_ne_true :
      ¬item.is_ability = true)]
    rw [hdata]
    simp only []
    rw [hcard]
    simp only []
    unfold resolveSpellBody
    rw [if_pos ⟨fun hh => by rw [hT] at hh; exact Bool.false_ne_true hh, hinv⟩]
  · intro targets hex
    rcases hex with ⟨t, htmem, hpt⟩
    unfold targets_invalid
    by_cases hT : targets.isEmpty = true
    · rw [if_pos hT]
    · rw [if_neg hT]
      cases hall : targets.all (fun t =>
          !(strStartsWith t "player:") && !(targetValidSomewhere s.players t)) with
      | false => rfl
      | true =>
        have hthis := List.all_eq_true.mp hall t htmem
        rw [hpt] at hthis
        simp at hthis

/-- Witness for C2: in `c2State` the Shock on the stack targets a card that
has moved to the graveyard, so resolving sends the Shock itself to the
graveyard with no other change; and a `player:`-tag target list is never
invalid. -/
theorem c2_fizzle_witness :
    resolve_top_of_stack envDefault c2State =
      some ((({ c2State with stack := [] } : GameState).setCardZone c2Card.id Zone.graveyard),
        { success := true }) ∧
    targets_invalid c2State ["player:p2"] = false := by
  have h := c2_fizzle envDefault c2State [] c2Item
    { type := .cast_spell, player_id := "p1", card_id := some "fz1", card_name := "Shock"
      targets := ["tg1"] } c2Card rfl rfl rfl rfl
  exact ⟨h.1 (by decide) (by decide), h.2 ["player:p2"] ⟨"player:p2", by decide, by decide⟩⟩

theorem tap_land_stack {s : GameState} {pid cid : String} {out : GameState × ActionResult}
    (h : tap_land_for_mana s pid cid = some out) : out.1.stack = s.stack := by
  unfold tap_land_for_mana at h
  split at h
  · cases h
  · simp only [] at h
    split at h
    · injection h with h
      rw [← h]
    · split at h
      · injection h with h
        rw [← h]
      · split at h
        · cases h
        · injection h with h
          rw [← h]
          simp only []
          rw [setPlayerById_stack, updateCard_stack]

theorem tapfold_stack (pid : String) (tapped2 : List String) :
    ∀ (lands : List CardInstance) (s : GameState),
    (lands.foldl (fun st land =>
      if tapped2.contains land.id then
        match tap_land_for_mana st pid land.id with
        | some (st', _) => st'
        | none => st
      else st) s).stack = s.stack := by
  intro lands
  induction lands with
  | nil => intro s; rfl
  | cons land rest ih =>
    intro s
    simp only [List.foldl_cons]
    rw [ih]
    by_cases hc : tapped2.contains land.id = true
    · rw [if_pos hc]
      cases ht : tap_land_for_mana s pid land.id with
      | none => rfl
      | some pr =>
        obtain ⟨st2, r2⟩ := pr
        simp only []
        exact tap_land_stack ht
    · rw [if_neg hc]

theorem auto_tap_stack {s : GameState} {pid cost : String} {b : Bool} {s' : GameState}
    (h : auto_tap_lands s pid cost = some (b, s')) : s'.stack = s.stack := by
  unfold auto_tap_lands at h
  split at h
  · cases h
  · split at h
    · cases h
    · simp only [] at h
      split at h
      · injection h with h
        injection h with h1 h2
        rw [← h2]
      · split at h
        · injection h with h
          injection h with h1 h2
          rw [← h2]
        · injection h with h
          injection h with h1 h2
          rw [← h2]
          exact tapfold_stack pid _ _ s

theorem putDoPay_stack {s : GameState} {pid cost : String} {b : Bool} {s2 : GameState}
    (h : putDoPay s pid cost = some (b, s2)) : s2.stack = s.stack := by
  unfold putDoPay at h
  split at h
  · cases h
  · rename_i s2' hat
    injection h with h
    injection h with h1 h2
    rw [← h2]
    exact auto_tap_stack hat
  · rename_i s2' hat
    split at h
    · cases h
    · split at h
      · cases h
      · injection h with h
        injection h with h1 h2
        rw [← h2]
        rw [setPlayerById_stack]
        exact auto_tap_stack hat

theorem putProwess_stack (s4 : GameState) (pid : String) (card : CardInstance) :
    (putProwess s4 pid card).stack = s4.stack := by
  unfold putProwess
  split
  · split
    · rfl
    · simp only []
      exact setPlayerById_stack _ _ _
  · rfl

theorem urzas_search_stack {env : ResolveEnv} {s : GameState} {item : StackItem}
    {out : GameState × ActionResult}
    (h : resolve_urzas_saga_search env s item = some out) : out.1.stack = s.stack := by
  unfold resolve_urzas_saga_search at h
  split at h
  · cases h
  · simp only [] at h
    split at h
    · injection h with h
      rw [← h]
    · injection h with h
      rw [← h]
      simp only []
      exact updateCard_stack _ _ _

theorem resolve_the_rack_stack {s : GameState} {item : StackItem}
    {out : GameState × ActionResult}
    (h : resolve_the_rack s item = some out) : out.1.stack = s.stack := by
  unfold resolve_the_rack at h
  split at h
  · injection h with h
    rw [← h]
  · simp only [] at h
    split at h
    · cases h
    · split at h
      · injection h with h
        rw [← h]
      · injection h with h
        rw [← h]
        simp only []
        exact setPlayerById_stack _ _ _

theorem resolve_shrieking_stack {s : GameState} {item : StackItem}
    {out : GameState × ActionResult}
    (h : resolve_shrieking_affliction s item = some out) : out.1.stack = s.stack := by
  unfold resolve_shrieking_affliction at h
  split at h
  · injection h with h
    rw [← h]
  · simp only [] at h
    split at h
    · cases h
    · split at h
      · injection h with h
        rw [← h]
      · injection h with h
        rw [← h]
        simp only []
        exact setPlayerById_stack _ _ _

theorem resolve_bowmasters_stack {s : GameState} {item : StackItem}
    {out : GameState × ActionResult}
    (h : resolve_bowmasters_trigger s item = some out) : out.1.stack = s.stack := by
  unfold resolve_bowmasters_trigger at h
  split at h
  · injection h with h
    rw [← h]
  · simp only [] at h
    split at h
    · cases h
    · split at h
      · cases h
      · split at h
        · injection h with h
          rw [← h]
          simp only []
          rw [updateCard_stack, setPlayerById_stack]
        · injection h with h
          rw [← h]
          simp only []
          rw [setPlayerById_stack, setPlayerById_stack]

theorem defaultResolvers_cases (nm : String) (res : TriggerResolver)
    (h : defaultRegistry.resolvers nm = some res) :
    res = resolve_the_rack ∨ res = resolve_shrieking_affliction ∨
      res = resolve_bowmasters_trigger := by
  unfold defaultRegistry at h
  simp only [] at h
  split at h
  · injection h with h
    exact Or.inl h.symm
  · injection h with h
    exact Or.inr (Or.inl h.symm)
  · injection h with h
    exact Or.inr (Or.inr h.symm)
  · cases h

theorem resolve_triggered_stack (env : ResolveEnv)
    (hreg : env.registry = none ∨ env.registry = some defaultRegistry)
    {s : GameState} {item : StackItem} {out : GameState × ActionResult}
    (h : resolve_triggered_ability env s item = some out) : out.1.stack = s.stack := by
  unfold resolve_triggered_ability at h
  split at h
  · -- evokeSac branch
    split at h
    · injection h with h
      rw [← h]
    · split at h
      · injection h with h
        rw [← h]
        simp only []
        exact setCardZone_stack _ _ _
      · injection h with h
        rw [← h]
  · -- generic branch
    split at h
    · exact urzas_search_stack h
    · split at h
      · injection h with h
        rw [← h]
      · split at h
        · injection h with h
          rw [← h]
        · rcases hreg with hreg | hreg
          · rw [hreg] at h
            simp only [] at h
            injection h with h
            rw [← h]
          · rw [hreg] at h
            simp only [] at h
            split at h
            · rename_i resolver hres
              rcases defaultResolvers_cases _ _ hres with hr | hr | hr
              · rw [hr] at h
                exact resolve_the_rack_stack h
              · rw [hr] at h
                exact resolve_shrieking_stack h
              · rw [hr] at h
                exact resolve_bowmasters_stack h
            · injection h with h
              rw [← h]

theorem resolveSpellBody_stack (env : ResolveEnv)
    (hT : EnvTemplatesPreserveStack env)
    {s1 : GameState} {item : StackItem} {action : Action} {card : CardInstance}
    {out : GameState × ActionResult}
    (h : resolveSpellBody env s1 item action card = some out) :
    ∃ pushed, out.1.stack = s1.stack ++ pushed := by
  unfold resolveSpellBody at h
  split at h
  · injection h with h
    refine ⟨[], ?_⟩
    rw [← h]
    simp only []
    rw [setCardZone_stack, List.append_nil]
  · split at h
    · simp only [] at h
      split at h
      · cases h
      · rename_i s2 res htpl0
        injection h with h
        refine ⟨[], ?_⟩
        rw [← h]
        simp only []
        rw [setCardZone_stack, List.append_nil]
        cases htpl : env.templates card.name with
        | none =>
          rw [htpl] at htpl0
          injection htpl0 with htpl0
          injection htpl0 with e1 e2
          rw [← e1]
        | some tpl =>
          rw [htpl] at htpl0
          simp only [] at htpl0
          exact hT card.name tpl htpl s1 action card (s2, res) htpl0
    · simp only [] at h
      split at h
      · cases h
      · rename_i s3 res htpl0
        have hs3 : s3.stack = s1.stack := by
          cases htpl : env.templates card.name with
          | none =>
            rw [htpl] at htpl0
            injection htpl0 with htpl0
            injection htpl0 with e1 e2
            rw [← e1]
            exact updateCard_stack _ _ _
          | some tpl =>
            rw [htpl] at htpl0
            simp only [] at htpl0
            have hpres := hT card.name tpl htpl _ action _ (s3, res) htpl0
            rw [hpres]
            exact updateCard_stack _ _ _
        split at h
        · cases h
        · rename_i etbItems hetb
          injection h with h
          exact ⟨_, by rw [← h]; simp only []; rw [hs3, List.append_assoc]⟩

theorem resolve_top_stack_shape (env : ResolveEnv)
    (hT : EnvTemplatesPreserveStack env)
    (hreg : env.registry = none ∨ env.registry = some defaultRegistry)
    {s : GameState} {init : List StackItem} {top : StackItem}
    {out : GameState × ActionResult}
    (hstack : s.stack = init ++ [top])
    (h : resolve_top_of_stack env s = some out) :
    ∃ pushed, out.1.stack = init ++ pushed := by
  unfold resolve_top_of_stack at h
  rw [hstack, popLast_concat] at h
  simp only [] at h
  split at h
  · have hp := resolve_triggered_stack env hreg h
    exact ⟨[], by rw [hp]; exact (List.append_nil init).symm⟩
  · split at h
    · cases h
    · cases h
    · split at h
      · cases h
      · injection h with h
        refine ⟨[], ?_⟩
        rw [← h]
        exact (List.append_nil init).symm
      · exact resolveSpellBody_stack env hT h

theorem resolve_instant_step (env : ResolveEnv) (s : GameState) (init : List StackItem)
    (item : StackItem) (a : Action) (card : CardInstance)
    (hstack : s.stack = init ++ [item])
    (hab : item.is_ability = false)
    (hdata : item.action_data = some (.ofAction a))
    (hcard : item.card_instance = some card)
    (hinstant : card.definition.is_instant = true)
    (htg : item.targets = [])
    (htpl : env.templates card.name = none) :
    resolve_top_of_stack env s =
      some ((({ s with stack := init } : GameState).setCardZone card.id Zone.graveyard),
        { success := true, tier_used := 3 }) := by
  unfold resolve_top_of_stack
  rw [hstack, popLast_concat]
  simp only []
  rw [if_neg (by rw [hab]; exact Bool.false_ne_true : ¬item.is_ability = true)]
  rw [hdata]
  simp only []
  rw [hcard]
  simp only []
  unfold resolveSpellBody
  rw [if_neg (fun hh => hh.1 (by rw [htg]; rfl))]
  rw [if_pos (by rw [hinstant]; rfl :
    (card.definition.is_instant || card.definition.is_sorcery) = true)]
  simp only []
  rw [htpl]

theorem payStep_stack {cond1 cond2 : Prop} [Decidable cond1] [Decidable cond2]
    {s : GameState} {pid cost1 cost2 : String} {b : Bool} {s2 : GameState}
    (hpay : (if cond1 then putDoPay s pid cost1
             else if cond2 then putDoPay s pid cost2
             else some (true, s)) = some (b, s2)) : s2.stack = s.stack := by
  split at hpay
  · exact putDoPay_stack hpay
  · split at hpay
    · exact putDoPay_stack hpay
    · injection hpay with hpay
      injection hpay with h1 h2
      rw [← h2]

theorem put_spell_stack {s : GameState} {action : Action}
    {out : GameState × ActionResult}
    (h : put_spell_on_stack s action = some out) :
    (out.2.success = true → ∃ item, out.1.stack = s.stack ++ [item]) ∧
    (out.2.success = false → out.1.stack = s.stack) := by
  unfold put_spell_on_stack at h
  split at h
  · cases h
  · simp only [] at h
    split at h
    · injection h with h
      constructor
      · intro htr
        rw [← h] at htr
        cases htr
      · intro _
        rw [← h]
    · rename_i card hfc
      split at h
      · cases h
      · rename_i s2 hpay
        injection h with h
        constructor
        · intro htr
          rw [← h] at htr
          cases htr
        · intro _
          rw [← h]
          simp only []
          exact payStep_stack hpay
      · rename_i s2 hpay
        injection h with h
        constructor
        · intro _
          refine ⟨putItem action card, ?_⟩
          rw [← h]
          simp only []
          rw [putProwess_stack]
          simp only []
          rw [setCardZone_stack, payStep_stack hpay]
        · intro hf
          rw [← h] at hf
          cases hf

theorem envDefault_templates_preserve : EnvTemplatesPreserveStack envDefault := by
  intro name tpl h
  cases h

/-- C1 (amended): (1) a successful `put_spell_on_stack` appends exactly one
item to the end of the stack, and a failed one leaves the stack unchanged;
(2) `resolve_top_of_stack` removes exactly the last element, but may push new
trigger/evoke items on top of the remaining stack (stated for stack-preserving
templates and the default or absent trigger registry), so the remaining stack
survives as a prefix; (3) for two instant spells A then B cast in that order
onto an empty stack (instants push nothing), two invocations resolve B first
and then A. -/
theorem c1_stack_lifo_amended :
    (∀ (s : GameState) (action : Action) (out : GameState × ActionResult),
      put_spell_on_stack s action = some out →
      (out.2.success = true → ∃ item, out.1.stack = s.stack ++ [item]) ∧
      (out.2.success = false → out.1.stack = s.stack)) ∧
    (∀ (env : ResolveEnv) (s : GameState) (init : List StackItem) (top : StackItem)
        (out : GameState × ActionResult),
      EnvTemplatesPreserveStack env →
      (env.registry = none ∨ env.registry = some defaultRegistry) →
      s.stack = init ++ [top] →
      resolve_top_of_stack env s = some out →
      ∃ pushed, out.1.stack = init ++ pushed) ∧
    (∀ (env : ResolveEnv) (s : GameState) (iA iB : StackItem) (aA aB : Action)
        (cA cB : CardInstance),
      env.templates cA.name = none → env.templates cB.name = none →
      s.stack = [iA, iB] →
      iA.is_ability = false → iB.is_ability = false →
      iA.action_data = some (.ofAction aA) → iB.action_data = some (.ofAction aB) →
      iA.card_instance = some cA → iB.card_instance = some cB →
      cA.definition.is_instant = true → cB.definition.is_instant = true →
      iA.targets = [] → iB.targets = [] →
      resolve_top_of_stack env s =
        some ((({ s with stack := [iA] } : GameState).setCardZone cB.id Zone.graveyard),
          { success := true, tier_used := 3 }) ∧
      resolve_top_of_stack env
          (({ s with stack := [iA] } : GameState).setCardZone cB.id Zone.graveyard) =
        some ((({ (({ s with stack := [iA] } : GameState).setCardZone cB.id Zone.graveyard)
              with stack := ([] : List StackItem) } : GameState).setCardZone
            cA.id Zone.graveyard),
          { success := true, tier_used := 3 })) := by
  refine ⟨fun s action out h => put_spell_stack h,
    fun env s init top out hT hreg hs h => resolve_top_stack_shape env hT hreg hs h, ?_⟩
  intro env s iA iB aA aB cA cB htplA htplB hstack habA habB hdataA hdataB hcardA
    hcardB hinstA hinstB htgA htgB
  constructor
  · exact resolve_instant_step env s [iA] iB aB cB (by rw [hstack]; rfl) habB hdataB hcardB
      hinstB htgB htplB
  · exact resolve_instant_step env _ [] iA aA cA (by rw [setCardZone_stack]; rfl) habA hdataA
      hcardA hinstA htgA htplA

/-- Counterexample to C1 as stated: with the default trigger registry, spells
A (Shock) then B (Orcish Bowmasters) on the stack, two invocations of
`resolve_top_of_stack` do NOT resolve B and then A.  Resolving B (a permanent)
pushes its ETB trigger item; the second invocation resolves that trigger
(dealing 1 to the opponent, life 19), and A is still on the stack. -/
theorem c1_stack_lifo_counterexample :
    ((resolve_top_of_stack envDefault c1State).bind (fun o1 =>
      (resolve_top_of_stack envDefault o1.1).map (fun o2 =>
        (o2.1.stack.map (fun it => it.source_card_name),
          (o2.1.getPlayer? "p2").map (fun p => p.life))))) =
      some (["Shock"], some 19) := by rfl

/-- Witness for C1 (amended): casting the Shock of `c8State` appends exactly
one stack item; resolving the top of `c1State` keeps the remaining stack as a
prefix (its head is still spell A); and in `c1TwoInstants` the later Shock
resolves first. -/
theorem c1_stack_lifo_amended_witness :
    ((put_spell_on_stack c8State c8Cast).map (fun out => (out.2.success, out.1.stack.length)))
      = some (true, 1) ∧
    ((resolve_top_of_stack envDefault c1State).map (fun out => out.1.stack.head?))
      = some (some c1ItemA) ∧
    resolve_top_of_stack envDefault c1TwoInstants =
      some ((({ c1TwoInstants with stack := [c1ItemSA] } : GameState).setCardZone
          c1ShockB.id Zone.graveyard),
        { success := true, tier_used := 3 }) := by
  obtain ⟨out1, hout1⟩ : ∃ o, put_spell_on_stack c8State c8Cast = some o := ⟨_, rfl⟩
  obtain ⟨out2, hout2⟩ : ∃ o, resolve_top_of_stack envDefault c1State = some o := ⟨_, rfl⟩
  have hsucc : out1.2.success = true := by
    have h2 : (put_spell_on_stack c8State c8Cast).map (fun o => o.2.success) = some true := by
      rfl
    rw [hout1, Option.map_some'] at h2
    injection h2
  obtain ⟨it, hit⟩ := (c1_stack_lifo_amended.1 c8State c8Cast out1 hout1).1 hsucc
  obtain ⟨pushed, hpushed⟩ := c1_stack_lifo_amended.2.1 envDefault c1State [c1ItemA]
    c1ItemB out2 envDefault_templates_preserve (Or.inr rfl) rfl hout2
  have h3 := (c1_stack_lifo_amended.2.2 envDefault c1TwoInstants c1ItemSA c1ItemSB
      _ _ c1ShockA c1ShockB rfl rfl rfl rfl rfl rfl rfl rfl rfl rfl rfl rfl rfl).1
  refine ⟨?_, ?_, h3⟩
  · rw [hout1, Option.map_some', hsucc, hit]
    rfl
  · rw [hout2, Option.map_some', hpushed]
    rfl

end EightRack
